import Mathlib

/-!
# go-service: ECR enumeration, token decoding and the pull/retag pipeline

A shallow embedding of `pkg/docker-utils/docker-utils.go`, `clientset-docker.go`
and `cmd/consumer/consumer.go`.

* Go `string` is a list of bytes; `<`/`>` on strings is the byte-wise
  lexicographic order and `strings.Contains` is byte-wise substring search.
* A Go `error` is `Option Err` (`none` is `nil`); a pointer is an `Option`.
* Calls to the AWS SDK and to the image engine are answered from a script
  supplied by the environment: the k-th call of an operation receives the
  k-th scripted reply.  A reply carries both return values of the Go call
  (`(*Output, error)`), each of which may be `nil`.
* A run ends by returning, by a run-time panic, or blocked on a call the script
  does not answer.
-/

namespace GoService

/-! ## Strings -/

/-- One byte of a Go string. -/
abbrev Byte := Fin 256

/-- Go `string`: an immutable sequence of bytes. -/
abbrev GoString := List Byte

/-- Go `byte(n)`: the conversion of an integer to a byte keeps its low 8 bits. -/
def byte (n : Nat) : Byte := ⟨n % 256, Nat.mod_lt n (by decide)⟩

/-- The bytes of a string literal of the source (the literals used are ASCII). -/
def lit (s : String) : GoString := s.toList.map (fun c => byte c.toNat)

/-- Go `a < b` on strings: byte-wise lexicographic comparison. -/
def strLt : GoString → GoString → Bool
  | [], [] => false
  | [], _ :: _ => true
  | _ :: _, [] => false
  | a :: as, b :: bs => if a < b then true else if b < a then false else strLt as bs

/-- Go `strings.HasPrefix(s, p)`. -/
def HasPrefix : GoString → GoString → Bool
  | _, [] => true
  | [], _ :: _ => false
  | c :: cs, p :: ps => if c = p then HasPrefix cs ps else false

/-- Go `strings.Contains(s, substr)`: `substr` occurs in `s` as a contiguous run of bytes. -/
def Contains : GoString → GoString → Bool
  | [], substr => HasPrefix [] substr
  | c :: cs, substr => HasPrefix (c :: cs) substr || Contains cs substr

/-- Go `aws.ToString(p)`: the pointed-to string, or the empty string for `nil`. -/
def ToString : Option GoString → GoString
  | none => []
  | some s => s

/-- Go `sort.SliceStable(xs, less)`: the standard library's stable sort, as the stable
insertion sort it runs on each block; an element is placed before the first element
that is not `less` than it, so elements that compare equal keep their order. -/
def SliceStable {α : Type} (less : α → α → Bool) (xs : List α) : List α :=
  xs.insertionSort (fun a b => less b a = false)

/-! ## Errors and runs -/

/-- Go error values. -/
inductive Err where
  /-- An error value produced by an external collaborator (SDK, engine, decoder). -/
  | upstream (code : Nat)
  /-- The value of `fmt.Errorf(msg)`. -/
  | errorf (msg : String)
  /-- The value of `fmt.Errorf(msg ++ ": %d", n)`. -/
  | errorfInt (msg : String) (n : Nat)
  /-- The value of `fmt.Errorf(msg ++ ": %w", inner)`. -/
  | wrap (msg : String) (inner : Err)
  deriving DecidableEq, Repr

/-- How a call of a Go function ends. -/
inductive Outcome (α : Type) where
  /-- The function returned `v`. -/
  | returned (v : α)
  /-- The function panicked (`panic(err)` or a nil dereference). -/
  | panicked
  /-- The function made a call the script has no reply for. -/
  | blocked
  deriving DecidableEq, Repr

/-- The two return values `(*Output, error)` of an SDK call. -/
structure Reply (α : Type) where
  resp : Option α
  err : Option Err
  deriving DecidableEq, Repr

/-! ## Data model (`models.go`, ECR SDK types) -/

/-- SDK `types.ImageIdentifier`. -/
structure ImageIdentifier where
  ImageDigest : Option GoString
  ImageTag : Option GoString
  deriving DecidableEq, Repr

/-- SDK `ecr.ListImagesOutput`. -/
structure ListImagesOutput where
  ImageIds : List ImageIdentifier
  NextToken : Option GoString
  deriving DecidableEq, Repr

/-- SDK `ecr.ListImagesInput` (`MaxResults` is 10 and the filter is `TagStatusTagged`
in every call; they are kept as fields). -/
structure ListImagesInput where
  RepositoryName : GoString
  MaxResults : Nat
  TagStatusTagged : Bool
  NextToken : Option GoString
  deriving DecidableEq, Repr

/-- SDK `types.Repository` (the one field read). -/
structure Repository where
  RepositoryName : Option GoString
  deriving DecidableEq, Repr

/-- SDK `ecr.DescribeRepositoriesOutput`. -/
structure DescribeRepositoriesOutput where
  Repositories : List Repository
  NextToken : Option GoString
  deriving DecidableEq, Repr

/-- SDK `ecr.DescribeRepositoriesInput`. -/
structure DescribeRepositoriesInput where
  MaxResults : Nat
  NextToken : Option GoString
  deriving DecidableEq, Repr

/-- `models.go`: `ECRRepository`. -/
structure ECRRepository where
  RepositoryName : GoString
  deriving DecidableEq, Repr

/-- `models.go`: `ECRResponse`. -/
structure ECRResponse where
  Repositories : List ECRRepository
  deriving DecidableEq, Repr

/-- `models.go`: `DockerImage`. -/
structure DockerImage where
  ImageDigest : GoString
  ImageTag : GoString
  deriving DecidableEq, Repr

/-- `models.go`: `DockerImagesResponse`. -/
structure DockerImagesResponse where
  ImageIds : List DockerImage
  deriving DecidableEq, Repr

/-- `models.go`: `RetrieveImagesRequest`. -/
structure RetrieveImagesRequest where
  Region : GoString
  RepositoryName : GoString
  deriving DecidableEq, Repr

/-- What the environment answers during an image enumeration: the result of loading
the AWS configuration and the scripted replies of `ListImages`. -/
structure ImagesEnv where
  cfgErr : Option Err
  pages : List (Reply ListImagesOutput)
  deriving DecidableEq, Repr

/-- What the environment answers during a repository enumeration. -/
structure ReposEnv where
  cfgErr : Option Err
  pages : List (Reply DescribeRepositoriesOutput)
  deriving DecidableEq, Repr

/-- A run: the inputs of the SDK calls made, in order, and how the function ended. -/
structure Run (ι α : Type) where
  calls : List ι
  outcome : Outcome α
  deriving DecidableEq, Repr

/-! ## `GetEcrContainers` (docker-utils.go 127-185) -/

/-- The body of `for _, imageID := range resp.ImageIds`: `*imageID.ImageTag` is a
dereference (`none` when it panics); an image is appended when its tag contains
`"1.0.0"`. -/
def appendImages (images : List DockerImage) : List ImageIdentifier → Option (List DockerImage)
  | [] => some images
  | imageID :: rest =>
    match imageID.ImageTag with
    | none => none
    | some tag =>
      if Contains tag (lit "1.0.0") then
        appendImages
          (images ++ [{ ImageDigest := ToString imageID.ImageDigest,
                        ImageTag := ToString imageID.ImageTag }]) rest
      else appendImages images rest

/-- The loop `for resp.NextToken != nil` of `GetEcrContainers`, with the state
`(input, resp, err, images)`; the result is `(resp, images, err)` at loop exit. -/
def listImagesLoop : List (Reply ListImagesOutput) → ListImagesInput → ListImagesOutput →
    Option Err → List DockerImage →
    Run ListImagesInput (ListImagesOutput × List DockerImage × Option Err)
  | script, input, resp, err, images =>
    match resp.NextToken with
    | none => { calls := [], outcome := .returned (resp, images, err) }
    | some tok =>
      let input1 := { input with NextToken := some tok }
      match script with
      | [] => { calls := [input1], outcome := .blocked }
      | reply :: rest =>
        match reply.resp with
        | none => { calls := [input1], outcome := .panicked }
        | some r =>
          match appendImages images r.ImageIds with
          | none => { calls := [input1], outcome := .panicked }
          | some images1 =>
            let run := listImagesLoop rest input1 r reply.err images1
            { calls := input1 :: run.calls, outcome := run.outcome }

/-- Go `GetEcrContainers(ecrRequest)`; the result is the pair `(images, err)`. -/
def GetEcrContainers (ecrRequest : RetrieveImagesRequest) (env : ImagesEnv) :
    Run ListImagesInput (DockerImagesResponse × Option Err) :=
  match env.cfgErr with
  | some _ => { calls := [], outcome := .panicked }
  | none =>
    let input : ListImagesInput :=
      { RepositoryName := ecrRequest.RepositoryName, MaxResults := 10,
        TagStatusTagged := true, NextToken := none }
    match env.pages with
    | [] => { calls := [input], outcome := .blocked }
    | reply :: rest =>
      match reply.err with
      | some e => { calls := [input], outcome := .returned ({ ImageIds := [] }, some e) }
      | none =>
        match reply.resp with
        | none => { calls := [input], outcome := .panicked }
        | some resp =>
          match appendImages [] resp.ImageIds with
          | none => { calls := [input], outcome := .panicked }
          | some images0 =>
            let run := listImagesLoop rest input resp none images0
            { calls := input :: run.calls,
              outcome :=
                match run.outcome with
                | .panicked => .panicked
                | .blocked => .blocked
                | .returned (_, images, some e) => .returned ({ ImageIds := images }, some e)
                | .returned (_, images, none) =>
                  .returned
                    ({ ImageIds :=
                        SliceStable (fun a b => strLt b.ImageTag a.ImageTag) images }, none) }

/-! ## `GetEcrRepositories` (docker-utils.go 90-125) -/

/-- The body of `for _, repository := range resp.Repositories`. -/
def appendRepositories (repos : List ECRRepository) (page : List Repository) :
    List ECRRepository :=
  repos ++ page.map (fun repository => { RepositoryName := ToString repository.RepositoryName })

/-- The loop `for resp.NextToken != nil` of `GetEcrRepositories`. -/
def describeRepositoriesLoop : List (Reply DescribeRepositoriesOutput) →
    DescribeRepositoriesInput → DescribeRepositoriesOutput → Option Err → List ECRRepository →
    Run DescribeRepositoriesInput (List ECRRepository × Option Err)
  | script, input, resp, err, repos =>
    match resp.NextToken with
    | none => { calls := [], outcome := .returned (repos, err) }
    | some tok =>
      let input1 := { input with NextToken := some tok }
      match script with
      | [] => { calls := [input1], outcome := .blocked }
      | reply :: rest =>
        match reply.resp with
        | none => { calls := [input1], outcome := .panicked }
        | some r =>
          let run := describeRepositoriesLoop rest input1 r reply.err
            (appendRepositories repos r.Repositories)
          { calls := input1 :: run.calls, outcome := run.outcome }

/-- Go `GetEcrRepositories(region)`: the error of the last fetch is logged, not
returned. -/
def GetEcrRepositories (env : ReposEnv) : Run DescribeRepositoriesInput ECRResponse :=
  match env.cfgErr with
  | some _ => { calls := [], outcome := .panicked }
  | none =>
    let input : DescribeRepositoriesInput := { MaxResults := 10, NextToken := none }
    match env.pages with
    | [] => { calls := [input], outcome := .blocked }
    | reply :: rest =>
      match reply.resp with
      | none => { calls := [input], outcome := .panicked }
      | some resp =>
        let run := describeRepositoriesLoop rest input resp reply.err
          (appendRepositories [] resp.Repositories)
        { calls := input :: run.calls,
          outcome :=
            match run.outcome with
            | .panicked => .panicked
            | .blocked => .blocked
            | .returned (repos, _) =>
              .returned
                { Repositories :=
                    SliceStable (fun a b => strLt a.RepositoryName b.RepositoryName) repos } }

/-! ## Page sequences (the vocabulary of the enumeration properties) -/

/-- The reply of a fetch that succeeded: a response and a `nil` error. -/
def Reply.ok {α : Type} (r : α) : Reply α := { resp := some r, err := none }

/-- A page sequence is complete when it is non-empty and its last page is the first one
whose `NextToken` is `nil`. -/
def completePages {α : Type} (next : α → Option GoString) : List α → Bool
  | [] => false
  | [p] => (next p).isNone
  | p :: q :: rest => (next p).isSome && completePages next (q :: rest)

/-- The last page of the sequence `p :: rest`. -/
def lastPage {α : Type} (p : α) : List α → α
  | [] => p
  | q :: rest => lastPage q rest

/-- All images of a page sequence, in arrival order. -/
def allImageIds : List ListImagesOutput → List ImageIdentifier
  | [] => []
  | p :: ps => p.ImageIds ++ allImageIds ps

/-- The entry `GetEcrContainers` builds from an SDK image identifier. -/
def toDockerImage (imageID : ImageIdentifier) : DockerImage :=
  { ImageDigest := ToString imageID.ImageDigest, ImageTag := ToString imageID.ImageTag }

/-- The images of a page sequence whose tag contains `"1.0.0"`, in arrival order. -/
def survivingImages (ps : List ListImagesOutput) : List DockerImage :=
  ((allImageIds ps).filter (fun i => Contains (ToString i.ImageTag) (lit "1.0.0"))).map
    toDockerImage

/-- All repository names of a page sequence, in arrival order. -/
def allRepositories : List DescribeRepositoriesOutput → List ECRRepository
  | [] => []
  | p :: ps =>
    p.Repositories.map (fun r => { RepositoryName := ToString r.RepositoryName })
      ++ allRepositories ps

/-- Every image of every page carries a tag (what the `TagStatusTagged` filter of the
request asks the registry for). -/
def allTagged (ps : List ListImagesOutput) : Bool :=
  (allImageIds ps).all (fun i => i.ImageTag.isSome)

/-- An image identifier with the given digest and tag. -/
def image (digest tag : String) : ImageIdentifier :=
  { ImageDigest := some (lit digest), ImageTag := some (lit tag) }

/-- An image page with the given images and continuation token. -/
def imagePage (images : List ImageIdentifier) (next : Option String) : ListImagesOutput :=
  { ImageIds := images, NextToken := next.map lit }

/-- A repository page with the given names and continuation token. -/
def repoPage (names : List String) (next : Option String) : DescribeRepositoriesOutput :=
  { Repositories := names.map (fun n => { RepositoryName := some (lit n) }),
    NextToken := next.map lit }

/-! ## `encoding/base64` (`URLEncoding`) and `strings.Split` -/

/-- The alphabet of `base64.URLEncoding`: the character for the 6-bit value `i`
(`A`-`Z`, `a`-`z`, `0`-`9`, `-`, `_`). -/
def encodeURL (i : Nat) : Byte :=
  if i < 26 then byte (65 + i)
  else if i < 52 then byte (97 + (i - 26))
  else if i < 62 then byte (48 + (i - 52))
  else if i = 62 then byte 45
  else byte 95

/-- The decode map of `base64.URLEncoding`: the 6-bit value of a character of the
alphabet, `none` (`0xff` in the library) for any other byte. -/
def decodeMap (c : Byte) : Option Nat :=
  if 65 ≤ c.val ∧ c.val ≤ 90 then some (c.val - 65)
  else if 97 ≤ c.val ∧ c.val ≤ 122 then some (c.val - 97 + 26)
  else if 48 ≤ c.val ∧ c.val ≤ 57 then some (c.val - 48 + 52)
  else if c.val = 45 then some 62
  else if c.val = 95 then some 63
  else none

/-- The padding character `=` of `base64.URLEncoding`. -/
def padChar : Byte := byte 61

/-- Go `base64.URLEncoding.EncodeToString(src)`: three bytes become four characters;
a final group of one or two bytes is padded with `=`. -/
def EncodeToString : GoString → GoString
  | [] => []
  | [a] => [encodeURL (a.val / 4), encodeURL (a.val % 4 * 16), padChar, padChar]
  | [a, b] =>
    [encodeURL (a.val / 4), encodeURL (a.val % 4 * 16 + b.val / 16),
     encodeURL (b.val % 16 * 4), padChar]
  | a :: b :: c :: rest =>
    encodeURL (a.val / 4) :: encodeURL (a.val % 4 * 16 + b.val / 16) ::
      encodeURL (b.val % 16 * 4 + c.val / 64) :: encodeURL (c.val % 64) ::
      EncodeToString rest

/-- The quanta of a base64 text without line breaks: four characters give three bytes;
padding is accepted only in the last quantum (`xx==` gives one byte, `xxx=` two); any
other shape is corrupt input (`none`). Decoding is not strict: unused low bits of the
last character are ignored. -/
def decodeQuanta : List Byte → Option GoString
  | [] => some []
  | c0 :: c1 :: c2 :: c3 :: rest =>
    match decodeMap c0, decodeMap c1, decodeMap c2, decodeMap c3 with
    | some v0, some v1, some v2, some v3 =>
      match decodeQuanta rest with
      | none => none
      | some out =>
        some (byte (v0 * 4 + v1 / 16) :: byte (v1 % 16 * 16 + v2 / 4) ::
          byte (v2 % 4 * 64 + v3) :: out)
    | some v0, some v1, some v2, none =>
      if c3 = padChar ∧ rest = [] then
        some [byte (v0 * 4 + v1 / 16), byte (v1 % 16 * 16 + v2 / 4)]
      else none
    | some v0, some v1, none, none =>
      if c2 = padChar ∧ c3 = padChar ∧ rest = [] then some [byte (v0 * 4 + v1 / 16)]
      else none
    | _, _, _, _ => none
  | _ => none

/-- Go `base64.URLEncoding.DecodeString(s)`: `\r` and `\n` are ignored, the rest is
decoded quantum by quantum; the second component is the `CorruptInputError` (its offset
is not modelled, nor the partial output that accompanies it). -/
def DecodeString (s : GoString) : GoString × Option Err :=
  match decodeQuanta (s.filter (fun c => c ≠ byte 10 ∧ c ≠ byte 13)) with
  | some out => (out, none)
  | none => ([], some (.upstream 0))

/-- Go `strings.Split(s, sep)` for a one-byte separator: the pieces between the
occurrences of `sep`; their number is the number of occurrences plus one. -/
def Split : GoString → Byte → List GoString
  | [], _ => [[]]
  | b :: bs, sep =>
    if b = sep then [] :: Split bs sep
    else
      match Split bs sep with
      | [] => [[b]]
      | piece :: pieces => (b :: piece) :: pieces

/-! ## Credentials: `GetEcrLoginPassword` (docker-utils.go 52-88) and
`getLoginPassword` (clientset-docker.go 62-92) -/

/-- SDK `types.AuthorizationData` (the one field read). -/
structure AuthorizationData where
  AuthorizationToken : Option GoString
  deriving DecidableEq, Repr

/-- SDK `ecr.GetAuthorizationTokenOutput`. -/
structure GetAuthorizationTokenOutput where
  AuthorizationData : List AuthorizationData
  deriving DecidableEq, Repr

/-- Go `GetEcrLoginPassword(ecr)` of `pkg/docker-utils`; `tkn` is the reply of
`ecr.GetAuthorizationToken`. Every early exit is `return "", err` with the variable
`err` as it stands at that point. -/
def GetEcrLoginPassword (tkn : Reply GetAuthorizationTokenOutput) :
    Outcome (GoString × Option Err) :=
  let err := tkn.err
  if err ≠ none then .returned ([], err)
  else
    match tkn.resp with
    | none => .panicked
    | some out =>
      if out.AuthorizationData.length = 0 then .returned ([], err)
      else if out.AuthorizationData.length > 1 then .returned ([], err)
      else
        match (out.AuthorizationData.getD 0 { AuthorizationToken := none }).AuthorizationToken with
        | none => .returned ([], err)
        | some str =>
          let (dec, err) := DecodeString str
          if err ≠ none then .returned ([], err)
          else
            let spl := Split dec (byte 58)
            if spl.length ≠ 2 then .returned ([], err)
            else .returned (spl.getD 1 [], none)

/-- Go `getLoginPassword(ctx, ecr)` of `clientset-docker.go`: the same steps, each
failure with an error value of its own. -/
def getLoginPassword (tkn : Reply GetAuthorizationTokenOutput) :
    Outcome (GoString × Option Err) :=
  match tkn.err with
  | some e => .returned ([], some (.wrap "failed to retrieve ecr token" e))
  | none =>
    match tkn.resp with
    | none => .panicked
    | some out =>
      if out.AuthorizationData.length = 0 then
        .returned ([], some (.errorf "ecr token is empty"))
      else if out.AuthorizationData.length > 1 then
        .returned ([], some (.errorfInt "multiple ecr tokens: length"
          out.AuthorizationData.length))
      else
        match (out.AuthorizationData.getD 0 { AuthorizationToken := none }).AuthorizationToken with
        | none => .returned ([], some (.errorf "ecr token is nil"))
        | some str =>
          match DecodeString str with
          | (_, some e) => .returned ([], some (.wrap "failed to decode ecr token" e))
          | (dec, none) =>
            let spl := Split dec (byte 58)
            if spl.length ≠ 2 then .returned ([], some (.errorf "unexpected ecr token format"))
            else .returned (spl.getD 1 [], none)

/-- The reply of `GetAuthorizationToken` that holds exactly one authorization entry with
the given token and a `nil` error. -/
def singleToken (token : GoString) : Reply GetAuthorizationTokenOutput :=
  Reply.ok { AuthorizationData := [{ AuthorizationToken := some token }] }

/-! ## The image engine and the HTTP context -/

/-- Docker `types.AuthConfig` (the two fields set). -/
structure AuthConfig where
  Username : GoString
  Password : GoString
  deriving DecidableEq, Repr

/-- `models.go`: `ImageRequest` (and `RetagImagesRequest` of `clientset-docker.go`, which
has the same four fields with `NewLatestTag` for `Tag`). -/
structure ImageRequest where
  Region : GoString
  RepositoryName : GoString
  Tag : GoString
  AccountID : GoString
  deriving DecidableEq, Repr

/-- What the environment answers to the engine-side calls of one run: `json.Marshal` of
the credentials, the creation of the docker client, and the errors of `ImagePull`, of
draining the pull stream, of `ImageTag`, of `ImagePush` and of draining the push
stream. -/
structure Engine where
  marshal : AuthConfig → GoString × Option Err
  newClientErr : Option Err
  imagePull : Option Err
  pullCopy : Option Err
  imageTag : Option Err
  imagePush : Option Err
  pushCopy : Option Err

/-- The body handed to `c.JSON`. -/
inductive Body where
  /-- The object `gin.H{"error": err.Error()}`. -/
  | error (e : Err)
  /-- A string. -/
  | text (s : String)
  /-- The SDK response `resp` of `ListImages`. -/
  | listImagesOutput (resp : ListImagesOutput)
  /-- The handler's `Repositories` value. -/
  | repositories (repos : ECRResponse)
  deriving DecidableEq, Repr

/-- What a run does that its caller or the outside can observe, in order. -/
inductive Event where
  /-- `main` calls `dockerUtils.PullImage(client, auth, request)`. -/
  | PullImage (auth : AuthConfig) (request : ImageRequest)
  /-- `main` calls `dockerUtils.RetagAndPushImage(client, auth, request)`. -/
  | RetagAndPushImage (auth : AuthConfig) (request : ImageRequest)
  /-- The handler calls `pullImage(ctx, cli, img, auth)`. -/
  | pullImage (img : GoString) (auth : AuthConfig)
  /-- Engine call `ImagePull(ctx, ref, ImagePullOptions{RegistryAuth})`. -/
  | ImagePull (ref registryAuth : GoString)
  /-- Engine call `ImageTag(ctx, source, target)`. -/
  | ImageTag (source target : GoString)
  /-- Engine call `ImagePush(ctx, ref, ImagePushOptions{RegistryAuth})`. -/
  | ImagePush (ref registryAuth : GoString)
  /-- `c.JSON(status, body)`. -/
  | JSON (status : Nat) (body : Body)
  deriving DecidableEq, Repr

/-- The events of a run and how it ended. -/
structure Trace (α : Type) where
  events : List Event
  outcome : Outcome α
  deriving DecidableEq, Repr

/-- Go `fmt.Sprintf("%s.dkr.ecr.%s.amazonaws.com/%s:%s", accountID, region, repositoryName,
tag)`. -/
def imageRef (accountID region repositoryName tag : GoString) : GoString :=
  accountID ++ lit ".dkr.ecr." ++ region ++ lit ".amazonaws.com/" ++ repositoryName
    ++ lit ":" ++ tag

/-! ## `PullImage` and `RetagAndPushImage` (docker-utils.go 187-258) -/

/-- Go `PullImage(dockerClient, auth, pullImage)`: the engine calls made and the error
returned. -/
def PullImage (engine : Engine) (auth : AuthConfig) (pullImage : ImageRequest) :
    List Event × Option Err :=
  let img := imageRef pullImage.AccountID pullImage.Region pullImage.RepositoryName
    pullImage.Tag
  match engine.marshal auth with
  | (_, some e) => ([], some e)
  | (authData, none) =>
    let auths := EncodeToString authData
    match engine.imagePull with
    | some e => ([.ImagePull img auths], some e)
    | none =>
      match engine.pullCopy with
      | some e => ([.ImagePull img auths], some e)
      | none => ([.ImagePull img auths], none)

/-- Go `RetagAndPushImage(dockerClient, auth, retagImage)`: the engine calls made and the
error returned. -/
def RetagAndPushImage (engine : Engine) (auth : AuthConfig) (retagImage : ImageRequest) :
    List Event × Option Err :=
  let img := imageRef retagImage.AccountID retagImage.Region retagImage.RepositoryName
    retagImage.Tag
  let latest := imageRef retagImage.AccountID retagImage.Region retagImage.RepositoryName
    (lit "latest")
  match engine.imageTag with
  | some e => ([.ImageTag img latest], some e)
  | none =>
    match engine.marshal auth with
    | (_, some e) => ([.ImageTag img latest], some e)
    | (authData, none) =>
      let auths := EncodeToString authData
      match engine.imagePush with
      | some e => ([.ImageTag img latest, .ImagePush latest auths], some e)
      | none =>
        match engine.pushCopy with
        | some e => ([.ImageTag img latest, .ImagePush latest auths], some e)
        | none => ([.ImageTag img latest, .ImagePush latest auths], none)

/-! ## The consumer entry point (consumer.go 37-40 and 59-80) -/

/-- The call `dockerUtils.PullImage(client, a, request)` as `main` makes it. `client` is
nil when `NewDockerClient` failed, because `main` only logs that error (consumer.go
37-40). With a client the call is `PullImage`; on the nil client the credentials are
marshalled as before and `dockerClient.ImagePull` dereferences the nil client, so the
call panics before the engine sees a request. -/
def callPullImage (engine : Engine) (auth : AuthConfig) (request : ImageRequest) :
    List Event × Outcome (Option Err) :=
  match engine.newClientErr with
  | none => ((PullImage engine auth request).1, .returned (PullImage engine auth request).2)
  | some _ =>
    match engine.marshal auth with
    | (_, some e) => ([], .returned (some e))
    | (_, none) => ([], .panicked)

/-- The call `dockerUtils.RetagAndPushImage(client, a, request)` as `main` makes it. With
a client the call is `RetagAndPushImage`; on the nil client its first statement after
the two references, `dockerClient.ImageTag`, dereferences the nil client. -/
def callRetagAndPushImage (engine : Engine) (auth : AuthConfig) (request : ImageRequest) :
    List Event × Outcome (Option Err) :=
  match engine.newClientErr with
  | none =>
    ((RetagAndPushImage engine auth request).1,
      .returned (RetagAndPushImage engine auth request).2)
  | some _ => ([], .panicked)

/-- The pipeline statements of the consumer's `main` (consumer.go 59-80), run with the
`client` that `NewDockerClient` left at lines 37-40 (`engine.newClientErr`; nil after a
failure): `GetEcrLoginPassword` (its error is logged), the credentials `a`, then
`PullImage(client, a, pullImageRequest)` and
`RetagAndPushImage(client, a, retagImageRequest)` as expression statements, their results
discarded. `tkn` is the reply of `GetAuthorizationToken`. A panic ends the run where it
happens. -/
def consumer.main (repoName : GoString) (tkn : Reply GetAuthorizationTokenOutput)
    (engine : Engine) : Trace Unit :=
  match GetEcrLoginPassword tkn with
  | .panicked => { events := [], outcome := .panicked }
  | .blocked => { events := [], outcome := .blocked }
  | .returned (pwd, _) =>
    let a : AuthConfig := { Username := lit "AWS", Password := pwd }
    let pullImageRequest : ImageRequest :=
      { Region := lit "us-east-1", RepositoryName := repoName, Tag := lit "1.0.0-dev-2693",
        AccountID := lit "656715373819" }
    let pulled := callPullImage engine a pullImageRequest
    match pulled.2 with
    | .panicked =>
      { events := [.PullImage a pullImageRequest] ++ pulled.1, outcome := .panicked }
    | .blocked =>
      { events := [.PullImage a pullImageRequest] ++ pulled.1, outcome := .blocked }
    | .returned _ =>
      let retagImageRequest : ImageRequest :=
        { Region := lit "us-east-1", RepositoryName := repoName,
          Tag := lit "1.0.0-dev-2693", AccountID := lit "656715373819" }
      let pushed := callRetagAndPushImage engine a retagImageRequest
      { events := [.PullImage a pullImageRequest] ++ pulled.1
          ++ [.RetagAndPushImage a retagImageRequest] ++ pushed.1,
        outcome :=
          match pushed.2 with
          | .returned _ => .returned ()
          | .panicked => .panicked
          | .blocked => .blocked }

/-! ## The HTTP handlers (clientset-docker.go) -/

/-- Go `pullImage(ctx, cli, img, auth)` of `clientset-docker.go`. -/
def pullImage (engine : Engine) (img : GoString) (auth : AuthConfig) :
    List Event × Option Err :=
  match engine.marshal auth with
  | (_, some e) => ([], some e)
  | (authData, none) =>
    let auths := EncodeToString authData
    match engine.imagePull with
    | some e => ([.ImagePull img auths], some (.wrap "failed to pull image" e))
    | none =>
      match engine.pullCopy with
      | some e => ([.ImagePull img auths], some (.wrap "failed to read image logs" e))
      | none => ([.ImagePull img auths], none)

/-- Go `retagImages(c)`: `bind` is the result of `c.BindJSON(&requestBody)`, `cfgErr` that
of `newAWSConfig`, `tkn` the reply of `GetAuthorizationToken`. After a failed
`getLoginPassword` the handler writes the 400 response and goes on. -/
def retagImages (bind : Except Err ImageRequest) (cfgErr : Option Err)
    (tkn : Reply GetAuthorizationTokenOutput) (engine : Engine) : Trace Unit :=
  match bind with
  | .error e => { events := [.JSON 400 (.error e)], outcome := .returned () }
  | .ok requestBody =>
    let img := imageRef requestBody.AccountID requestBody.Region requestBody.RepositoryName
      requestBody.Tag
    match cfgErr with
    | some _ => { events := [], outcome := .panicked }
    | none =>
      match getLoginPassword tkn with
      | .panicked => { events := [], outcome := .panicked }
      | .blocked => { events := [], outcome := .blocked }
      | .returned (pwd, err) =>
        let events1 : List Event :=
          match err with
          | some e => [.JSON 400 (.error e)]
          | none => []
        let a : AuthConfig := { Username := lit "AWS", Password := pwd }
        match engine.newClientErr with
        | some _ => { events := events1, outcome := .panicked }
        | none =>
          let pulled := pullImage engine img a
          let events2 : List Event :=
            match pulled.2 with
            | some e => [.JSON 400 (.error e)]
            | none => []
          { events := events1 ++ [.pullImage img a] ++ pulled.1 ++ events2,
            outcome := .returned () }

/-- Go `RetrieveEcrContainers(c)` (POST /repo/images): `bind` is the result of
`c.BindJSON(&requestBody)`. The loop is the one of `GetEcrContainers` (with `Images` for
`DockerImage`); the sorted `images` are not what is written: the 200 response carries
`resp`, the last response of `ListImages`. -/
def RetrieveEcrContainers (bind : Except Err RetrieveImagesRequest) (env : ImagesEnv) :
    Run ListImagesInput (List Event) :=
  match bind with
  | .error e => { calls := [], outcome := .returned [.JSON 400 (.error e)] }
  | .ok requestBody =>
    match env.cfgErr with
    | some _ => { calls := [], outcome := .panicked }
    | none =>
      let input : ListImagesInput :=
        { RepositoryName := requestBody.RepositoryName, MaxResults := 10,
          TagStatusTagged := true, NextToken := none }
      match env.pages with
      | [] => { calls := [input], outcome := .blocked }
      | reply :: rest =>
        match reply.err with
        | some _ =>
          { calls := [input], outcome := .returned [.JSON 404 (.text "Registry not found")] }
        | none =>
          match reply.resp with
          | none => { calls := [input], outcome := .panicked }
          | some resp =>
            match appendImages [] resp.ImageIds with
            | none => { calls := [input], outcome := .panicked }
            | some images0 =>
              let run := listImagesLoop rest input resp none images0
              { calls := input :: run.calls,
                outcome :=
                  match run.outcome with
                  | .panicked => .panicked
                  | .blocked => .blocked
                  | .returned (_, _, some _) =>
                    .returned [.JSON 500 (.text "Error listing images")]
                  | .returned (resp, images, none) =>
                    let _images := SliceStable (fun a b => strLt b.ImageTag a.ImageTag) images
                    .returned [.JSON 200 (.listImagesOutput resp)] }

/-- Go `getRepositories(c)` (GET /repo/:region): the loop is the one of
`GetEcrRepositories`; the error of the last fetch is logged and the 200 response is
written in every case. -/
def getRepositories (env : ReposEnv) : Run DescribeRepositoriesInput (List Event) :=
  match env.cfgErr with
  | some _ => { calls := [], outcome := .panicked }
  | none =>
    let input : DescribeRepositoriesInput := { MaxResults := 10, NextToken := none }
    match env.pages with
    | [] => { calls := [input], outcome := .blocked }
    | reply :: rest =>
      match reply.resp with
      | none => { calls := [input], outcome := .panicked }
      | some resp =>
        let run := describeRepositoriesLoop rest input resp reply.err
          (appendRepositories [] resp.Repositories)
        { calls := input :: run.calls,
          outcome :=
            match run.outcome with
            | .panicked => .panicked
            | .blocked => .blocked
            | .returned (repos, _) =>
              .returned [.JSON 200 (.repositories
                { Repositories :=
                    SliceStable (fun a b => strLt a.RepositoryName b.RepositoryName)
                      repos })] }

/-- The `{digest, tag}` entries a response body carries, in order. -/
def bodyEntries : Body → List DockerImage
  | .listImagesOutput resp => resp.ImageIds.map toDockerImage
  | _ => []

/-- An engine for the examples: `marshal` renders the two credential fields one after the
other (a stand-in for `json.Marshal`, which is outside the repository), the client is
created, streams drain without error, and `ImagePull`, `ImageTag`, `ImagePush` answer
with the given errors. -/
def sampleEngine (pull tag push : Option Err) : Engine :=
  { marshal := fun a => (lit "user=" ++ a.Username ++ lit ";password=" ++ a.Password, none),
    newClientErr := none,
    imagePull := pull,
    pullCopy := none,
    imageTag := tag,
    imagePush := push,
    pushCopy := none }

/-- The request the consumer's `main` builds for both `PullImage` and
`RetagAndPushImage`. -/
def consumerRequest (repoName : GoString) : ImageRequest :=
  { Region := lit "us-east-1", RepositoryName := repoName, Tag := lit "1.0.0-dev-2693",
    AccountID := lit "656715373819" }

/-- The failure conditions of credential acquisition, in the words of the specification:
the token request fails, or zero authorization entries are returned, or more than one, or
the single entry's token is null, or the token is not valid base64url, or the decoded
payload does not contain exactly one `:`. -/
def loginFails (tkn : Reply GetAuthorizationTokenOutput) : Bool :=
  tkn.err.isSome ||
    match tkn.resp with
    | none => false
    | some out =>
      decide (out.AuthorizationData.length = 0) || decide (out.AuthorizationData.length > 1) ||
        match out.AuthorizationData with
        | [entry] =>
          match entry.AuthorizationToken with
          | none => true
          | some str =>
            (DecodeString str).2.isSome ||
              decide ((DecodeString str).1.count (byte 58) ≠ 1)
        | _ => false

/-! ## Order and sorting lemmas -/

theorem strLt_irrefl (a : GoString) : strLt a a = false := by
  induction a with
  | nil => rfl
  | cons x xs ih => simp [strLt, ih]

theorem strLt_asymm : ∀ (a b : GoString), strLt a b = true → strLt b a = false
  | [], [], _ => rfl
  | [], _ :: _, _ => rfl
  | _ :: _, [], h => by simp [strLt] at h
  | x :: xs, y :: ys, h => by
    simp only [strLt] at h ⊢
    by_cases h1 : x < y
    · have h2 : ¬ y < x := fun h2 => absurd (lt_trans h1 h2) (lt_irrefl _)
      simp [h1, h2]
    · by_cases h2 : y < x
      · simp [h1, h2] at h
      · simp only [h1, h2, if_false] at h ⊢
        exact strLt_asymm xs ys h

theorem strLt_negtrans : ∀ (a b c : GoString), strLt a b = false → strLt b c = false →
    strLt a c = false
  | [], [], _, _, h => h
  | [], _ :: _, _, h, _ => by simp [strLt] at h
  | _ :: _, [], [], _, _ => rfl
  | _ :: _, [], _ :: _, _, h => by simp [strLt] at h
  | _ :: _, _ :: _, [], _, _ => rfl
  | x :: xs, y :: ys, z :: zs, h1, h2 => by
    simp only [strLt] at h1 h2 ⊢
    by_cases hxy : x < y
    · simp [hxy] at h1
    · by_cases hyz : y < z
      · simp [hyz] at h2
      · simp only [hxy, hyz, if_false] at h1 h2
        have hxz : ¬ x < z := fun h => by
          rcases lt_or_ge x y with h' | h'
          · exact hxy h'
          · exact hyz (lt_of_le_of_lt h' h)
        simp only [hxz, if_false]
        by_cases hyx : y < x
        · have : z < x := lt_of_le_of_lt (not_lt.mp hyz) hyx
          simp [this]
        · have hxy' : x = y := le_antisymm (not_lt.mp hyx) (not_lt.mp hxy)
          subst hxy'
          by_cases hzx : z < x
          · simp [hzx]
          · simp only [hyx, hzx, if_false] at h1 h2 ⊢
            exact strLt_negtrans xs ys zs h1 h2

theorem SliceStable_perm {α : Type} (less : α → α → Bool) (xs : List α) :
    (SliceStable less xs).Perm xs :=
  List.perm_insertionSort _ xs

theorem SliceStable_sorted {α : Type} (less : α → α → Bool)
    (hasymm : ∀ a b, less a b = true → less b a = false)
    (hneg : ∀ a b c, less b a = false → less c b = false → less c a = false)
    (xs : List α) :
    (SliceStable less xs).Pairwise (fun a b => less b a = false) := by
  haveI : IsTotal α (fun a b => less b a = false) :=
    ⟨fun a b => by
      cases h : less b a
      · exact Or.inl rfl
      · exact Or.inr (hasymm b a h)⟩
  haveI : IsTrans α (fun a b => less b a = false) := ⟨fun a b c h1 h2 => hneg a b c h1 h2⟩
  exact List.sorted_insertionSort (fun a b => less b a = false) xs

theorem SliceStable_stable {α : Type} (less : α → α → Bool) (p : α → Bool)
    (hp : ∀ a b, p a = true → p b = true → less b a = false) (xs : List α) :
    (SliceStable less xs).filter p = xs.filter p := by
  have hsub : List.Sublist (xs.filter p) (SliceStable less xs) := by
    apply List.sublist_insertionSort
    · exact List.pairwise_of_forall_mem_list (fun a ha b hb =>
        hp a b (List.mem_filter.mp ha).2 (List.mem_filter.mp hb).2)
    · exact List.filter_sublist xs
  have hsub2 : List.Sublist (xs.filter p) ((SliceStable less xs).filter p) := by
    have := hsub.filter p
    rwa [List.filter_filter, show (fun a => p a && p a) = p from by funext a; simp] at this
  have hlen : ((SliceStable less xs).filter p).length = (xs.filter p).length :=
    ((SliceStable_perm less xs).filter p).length_eq
  exact (hsub2.eq_of_length hlen.symm).symm


/-! ## Image enumeration -/

theorem appendImages_tagged (ids : List ImageIdentifier) :
    ∀ acc : List DockerImage, (ids.all (fun i => i.ImageTag.isSome) = true) →
    appendImages acc ids = some (acc ++
      (ids.filter (fun i => Contains (ToString i.ImageTag) (lit "1.0.0"))).map toDockerImage) := by
  induction ids with
  | nil => intro acc _; simp [appendImages]
  | cons i rest ih =>
    intro acc h
    simp only [List.all_cons, Bool.and_eq_true] at h
    obtain ⟨hi, hrest⟩ := h
    cases htag : i.ImageTag with
    | none => simp [htag] at hi
    | some tag =>
      have hts : ToString i.ImageTag = tag := by rw [htag]; rfl
      rw [appendImages, List.filter_cons, hts]
      simp only [htag]
      by_cases hc : Contains tag (lit "1.0.0") = true
      · simp only [hc, if_true, List.map_cons]
        rw [ih _ hrest]
        simp [toDockerImage, htag, ToString]
      · simp only [hc, if_false]
        exact ih _ hrest

theorem listImagesLoop_ok (rest : List ListImagesOutput) :
    ∀ (input : ListImagesInput) (p : ListImagesOutput) (err : Option Err)
      (acc : List DockerImage),
      completePages ListImagesOutput.NextToken (p :: rest) = true →
      allTagged rest = true →
      (listImagesLoop (rest.map Reply.ok) input p err acc).outcome =
        .returned (lastPage p rest, acc ++ survivingImages rest,
          if rest = [] then err else none) := by
  induction rest with
  | nil =>
    intro input p err acc h _
    simp only [completePages, Option.isNone_iff_eq_none] at h
    simp [listImagesLoop, h, survivingImages, allImageIds, lastPage]
  | cons q rest ih =>
    intro input p err acc h ht
    simp only [completePages, Bool.and_eq_true, Option.isSome_iff_exists] at h
    obtain ⟨⟨tok, htok⟩, hrest⟩ := h
    simp only [allTagged, allImageIds, List.all_append, Bool.and_eq_true] at ht
    obtain ⟨htq, htrest⟩ := ht
    have hq := appendImages_tagged q.ImageIds acc htq
    have := ih { input with NextToken := some tok } q none
      (acc ++ (q.ImageIds.filter
        (fun i => Contains (ToString i.ImageTag) (lit "1.0.0"))).map toDockerImage) hrest htrest
    rw [List.map_cons, listImagesLoop]
    simp only [htok, Reply.ok, hq, this]
    have hs : survivingImages (q :: rest) =
        (q.ImageIds.filter (fun i => Contains (ToString i.ImageTag) (lit "1.0.0"))).map
          toDockerImage ++ survivingImages rest := by
      simp [survivingImages, allImageIds]
    rw [hs, List.append_assoc]
    cases rest <;> simp [lastPage]

/-- C1 as amended: when every fetch of a complete page sequence succeeds and every image
of every page carries a tag (`ImageTag` is not nil), `GetEcrContainers` returns a nil
error and its `ImageIds` are the stable descending-by-tag sort of the surviving images of
all pages in arrival order: a permutation of them (nothing dropped, nothing duplicated),
in non-increasing tag order, equal tags keeping their arrival order, every tag containing
`"1.0.0"`. -/
theorem GetEcrContainers_sorted_surviving (ecrRequest : RetrieveImagesRequest)
    (ps : List ListImagesOutput)
    (hpages : completePages ListImagesOutput.NextToken ps = true)
    (htag : allTagged ps = true) :
    ∃ images : List DockerImage,
      (GetEcrContainers ecrRequest { cfgErr := none, pages := ps.map Reply.ok }).outcome
          = .returned ({ ImageIds := images }, none)
      ∧ images = SliceStable (fun a b => strLt b.ImageTag a.ImageTag) (survivingImages ps)
      ∧ images.Perm (survivingImages ps)
      ∧ images.Pairwise (fun a b => strLt a.ImageTag b.ImageTag = false)
      ∧ (∀ tag : GoString, images.filter (fun d => decide (d.ImageTag = tag))
            = (survivingImages ps).filter (fun d => decide (d.ImageTag = tag)))
      ∧ (∀ d ∈ images, Contains d.ImageTag (lit "1.0.0") = true) := by
  cases ps with
  | nil => simp [completePages] at hpages
  | cons p rest =>
    simp only [allTagged, allImageIds, List.all_append, Bool.and_eq_true] at htag
    obtain ⟨htp, htrest⟩ := htag
    have hp := appendImages_tagged p.ImageIds [] htp
    have hloop := listImagesLoop_ok rest
      { RepositoryName := ecrRequest.RepositoryName, MaxResults := 10,
        TagStatusTagged := true, NextToken := none } p none
      ([] ++ (p.ImageIds.filter
        (fun i => Contains (ToString i.ImageTag) (lit "1.0.0"))).map toDockerImage)
      hpages htrest
    have hs : survivingImages (p :: rest) =
        (p.ImageIds.filter (fun i => Contains (ToString i.ImageTag) (lit "1.0.0"))).map
          toDockerImage ++ survivingImages rest := by
      simp [survivingImages, allImageIds]
    refine ⟨SliceStable (fun a b => strLt b.ImageTag a.ImageTag) (survivingImages (p :: rest)),
      ?_, rfl, SliceStable_perm _ _, ?_, ?_, ?_⟩
    · rw [List.map_cons, GetEcrContainers]
      simp only [List.nil_append, ite_self] at hp hloop
      simp only [Reply.ok, hp, hloop, hs]
    · exact SliceStable_sorted (fun a b : DockerImage => strLt b.ImageTag a.ImageTag)
        (fun a b h => strLt_asymm _ _ h)
        (fun a b c h1 h2 => strLt_negtrans _ _ _ h1 h2) _
    · intro tag
      apply SliceStable_stable
      intro a b ha hb
      have ha1 : a.ImageTag = tag := of_decide_eq_true ha
      have hb1 : b.ImageTag = tag := of_decide_eq_true hb
      rw [ha1, hb1]
      exact strLt_irrefl tag
    · intro d hd
      have hd1 : d ∈ survivingImages (p :: rest) := (SliceStable_perm _ _).mem_iff.mp hd
      simp only [survivingImages, List.mem_map, List.mem_filter] at hd1
      obtain ⟨i, ⟨_, hi⟩, rfl⟩ := hd1
      exact hi

theorem GetEcrContainers_sorted_surviving_witness :
    completePages ListImagesOutput.NextToken
        [imagePage [image "sha256:1" "1.0.0-a", image "sha256:2" "2.0.0"] (some "t1"),
         imagePage [image "sha256:3" "1.0.0-b"] none] = true
    ∧ allTagged
        [imagePage [image "sha256:1" "1.0.0-a", image "sha256:2" "2.0.0"] (some "t1"),
         imagePage [image "sha256:3" "1.0.0-b"] none] = true
    ∧ (GetEcrContainers { Region := lit "us-east-1", RepositoryName := lit "svc" }
        { cfgErr := none,
          pages := [imagePage [image "sha256:1" "1.0.0-a", image "sha256:2" "2.0.0"]
                      (some "t1"),
                    imagePage [image "sha256:3" "1.0.0-b"] none].map Reply.ok }).outcome
        = .returned ({ ImageIds := [toDockerImage (image "sha256:3" "1.0.0-b"),
                                    toDockerImage (image "sha256:1" "1.0.0-a")] }, none)
    ∧ survivingImages
        [imagePage [image "d1" "1.0.0-dev-1", image "d2" "2.0.0", image "d3" "1.0.0"] none]
        = [toDockerImage (image "d1" "1.0.0-dev-1"), toDockerImage (image "d3" "1.0.0")]
    ∧ ∃ images : List DockerImage,
      (GetEcrContainers { Region := lit "us-east-1", RepositoryName := lit "svc" }
        { cfgErr := none,
          pages := [imagePage [image "sha256:1" "1.0.0-a", image "sha256:2" "2.0.0"]
                      (some "t1"),
                    imagePage [image "sha256:3" "1.0.0-b"] none].map Reply.ok }).outcome
          = .returned ({ ImageIds := images }, none)
      ∧ images = SliceStable (fun a b => strLt b.ImageTag a.ImageTag)
          (survivingImages
            [imagePage [image "sha256:1" "1.0.0-a", image "sha256:2" "2.0.0"] (some "t1"),
             imagePage [image "sha256:3" "1.0.0-b"] none])
      ∧ images.Perm (survivingImages
            [imagePage [image "sha256:1" "1.0.0-a", image "sha256:2" "2.0.0"] (some "t1"),
             imagePage [image "sha256:3" "1.0.0-b"] none])
      ∧ images.Pairwise (fun a b => strLt a.ImageTag b.ImageTag = false)
      ∧ (∀ tag : GoString, images.filter (fun d => decide (d.ImageTag = tag))
            = (survivingImages
                [imagePage [image "sha256:1" "1.0.0-a", image "sha256:2" "2.0.0"]
                   (some "t1"),
                 imagePage [image "sha256:3" "1.0.0-b"] none]).filter
                (fun d => decide (d.ImageTag = tag)))
      ∧ (∀ d ∈ images, Contains d.ImageTag (lit "1.0.0") = true) :=
  ⟨by decide, by decide, by decide, by decide,
    GetEcrContainers_sorted_surviving _ _ (by decide) (by decide)⟩

/-! ## Repository enumeration -/

theorem describeRepositoriesLoop_ok (rest : List DescribeRepositoriesOutput) :
    ∀ (input : DescribeRepositoriesInput) (p : DescribeRepositoriesOutput) (err : Option Err)
      (acc : List ECRRepository),
      completePages DescribeRepositoriesOutput.NextToken (p :: rest) = true →
      (describeRepositoriesLoop (rest.map Reply.ok) input p err acc).outcome =
        .returned (acc ++ allRepositories rest, if rest = [] then err else none) := by
  induction rest with
  | nil =>
    intro input p err acc h
    simp only [completePages, Option.isNone_iff_eq_none] at h
    simp [describeRepositoriesLoop, h, allRepositories]
  | cons q rest ih =>
    intro input p err acc h
    simp only [completePages, Bool.and_eq_true, Option.isSome_iff_exists] at h
    obtain ⟨⟨tok, htok⟩, hrest⟩ := h
    have := ih { input with NextToken := some tok } q none
      (appendRepositories acc q.Repositories) hrest
    simp only [ite_self] at this
    rw [List.map_cons, describeRepositoriesLoop]
    simp only [htok, Reply.ok, this]
    simp [appendRepositories, allRepositories]

/-- C2: when every fetch of a complete repository page sequence succeeds,
`GetEcrRepositories` returns the stable ascending-by-name sort of the unfiltered
concatenation of the repository names of all pages: a permutation of the concatenation
(same length, nothing dropped or duplicated), in non-decreasing name order, equal names
keeping their arrival order. -/
theorem GetEcrRepositories_sorted_all (ps : List DescribeRepositoriesOutput)
    (hpages : completePages DescribeRepositoriesOutput.NextToken ps = true) :
    ∃ repos : List ECRRepository,
      (GetEcrRepositories { cfgErr := none, pages := ps.map Reply.ok }).outcome
          = .returned { Repositories := repos }
      ∧ repos = SliceStable (fun a b => strLt a.RepositoryName b.RepositoryName)
          (allRepositories ps)
      ∧ repos.Perm (allRepositories ps)
      ∧ repos.length = (allRepositories ps).length
      ∧ repos.Pairwise (fun a b => strLt b.RepositoryName a.RepositoryName = false)
      ∧ (∀ name : GoString, repos.filter (fun r => decide (r.RepositoryName = name))
            = (allRepositories ps).filter (fun r => decide (r.RepositoryName = name))) := by
  cases ps with
  | nil => simp [completePages] at hpages
  | cons p rest =>
    have hloop := describeRepositoriesLoop_ok rest { MaxResults := 10, NextToken := none } p
      none (appendRepositories [] p.Repositories) hpages
    simp only [ite_self] at hloop
    refine ⟨SliceStable (fun a b => strLt a.RepositoryName b.RepositoryName)
      (allRepositories (p :: rest)), ?_, rfl, SliceStable_perm _ _,
      (SliceStable_perm _ _).length_eq, ?_, ?_⟩
    · rw [List.map_cons, GetEcrRepositories]
      simp only [Reply.ok, hloop]
      simp [appendRepositories, allRepositories]
    · exact SliceStable_sorted (fun a b : ECRRepository => strLt a.RepositoryName b.RepositoryName)
        (fun a b h => strLt_asymm _ _ h)
        (fun a b c h1 h2 => strLt_negtrans _ _ _ h2 h1) _
    · intro name
      apply SliceStable_stable
      intro a b ha hb
      have ha1 : a.RepositoryName = name := of_decide_eq_true ha
      have hb1 : b.RepositoryName = name := of_decide_eq_true hb
      rw [ha1, hb1]
      exact strLt_irrefl name

theorem GetEcrRepositories_sorted_all_witness :
    completePages DescribeRepositoriesOutput.NextToken
        [repoPage ["zeta", "alpha"] (some "t1"), repoPage ["mu"] none] = true
    ∧ (GetEcrRepositories
        { cfgErr := none,
          pages := [repoPage ["zeta", "alpha"] (some "t1"), repoPage ["mu"] none].map
            Reply.ok }).outcome
        = .returned { Repositories := [{ RepositoryName := lit "alpha" },
                                       { RepositoryName := lit "mu" },
                                       { RepositoryName := lit "zeta" }] }
    ∧ ∃ repos : List ECRRepository,
      (GetEcrRepositories
        { cfgErr := none,
          pages := [repoPage ["zeta", "alpha"] (some "t1"), repoPage ["mu"] none].map
            Reply.ok }).outcome
          = .returned { Repositories := repos }
      ∧ repos = SliceStable (fun a b => strLt a.RepositoryName b.RepositoryName)
          (allRepositories [repoPage ["zeta", "alpha"] (some "t1"), repoPage ["mu"] none])
      ∧ repos.Perm
          (allRepositories [repoPage ["zeta", "alpha"] (some "t1"), repoPage ["mu"] none])
      ∧ repos.length =
          (allRepositories
            [repoPage ["zeta", "alpha"] (some "t1"), repoPage ["mu"] none]).length
      ∧ repos.Pairwise (fun a b => strLt b.RepositoryName a.RepositoryName = false)
      ∧ (∀ name : GoString, repos.filter (fun r => decide (r.RepositoryName = name))
            = (allRepositories
                [repoPage ["zeta", "alpha"] (some "t1"), repoPage ["mu"] none]).filter
                (fun r => decide (r.RepositoryName = name))) :=
  ⟨by decide, by decide, GetEcrRepositories_sorted_all _ (by decide)⟩

/-! ## Token codec -/

theorem byte_val (n : Nat) : (byte n).val = n % 256 := rfl

theorem decodeMap_encodeURL_fin : ∀ i : Fin 64, decodeMap (encodeURL i.val) = some i.val := by
  decide

theorem decodeMap_encodeURL (i : Nat) (h : i < 64) : decodeMap (encodeURL i) = some i :=
  decodeMap_encodeURL_fin ⟨i, h⟩

theorem decodeMap_padChar : decodeMap padChar = none := by decide

theorem encodeURL_not_break_fin :
    ∀ i : Fin 64, encodeURL i.val ≠ byte 10 ∧ encodeURL i.val ≠ byte 13 := by
  decide

theorem encodeURL_not_break (i : Nat) : encodeURL i ≠ byte 10 ∧ encodeURL i ≠ byte 13 := by
  by_cases h : i < 64
  · exact encodeURL_not_break_fin ⟨i, h⟩
  · have h1 : ¬ i < 26 := by omega
    have h2 : ¬ i < 52 := by omega
    have h3 : ¬ i < 62 := by omega
    have h4 : ¬ i = 62 := by omega
    simp only [encodeURL, h1, h2, h3, h4, if_false]
    decide

theorem padChar_not_break : padChar ≠ byte 10 ∧ padChar ≠ byte 13 := by decide

theorem EncodeToString_no_break : ∀ (src : GoString),
    ∀ c ∈ EncodeToString src, c ≠ byte 10 ∧ c ≠ byte 13
  | [] => by simp [EncodeToString]
  | [a] => by
    intro c hc
    simp only [EncodeToString, List.mem_cons, List.mem_singleton, List.not_mem_nil,
      or_false, or_self] at hc
    rcases hc with rfl | rfl | rfl
    · exact encodeURL_not_break _
    · exact encodeURL_not_break _
    · exact padChar_not_break
  | [a, b] => by
    intro c hc
    simp only [EncodeToString, List.mem_cons, List.mem_singleton, List.not_mem_nil,
      or_false] at hc
    rcases hc with rfl | rfl | rfl | rfl
    · exact encodeURL_not_break _
    · exact encodeURL_not_break _
    · exact encodeURL_not_break _
    · exact padChar_not_break
  | a :: b :: c :: rest => by
    intro x hx
    simp only [EncodeToString, List.mem_cons] at hx
    rcases hx with rfl | rfl | rfl | rfl | hx
    · exact encodeURL_not_break _
    · exact encodeURL_not_break _
    · exact encodeURL_not_break _
    · exact encodeURL_not_break _
    · exact EncodeToString_no_break rest x hx

theorem decodeQuanta_EncodeToString : ∀ (src : GoString),
    decodeQuanta (EncodeToString src) = some src
  | [] => by simp [EncodeToString, decodeQuanta]
  | [a] => by
    have ha := a.isLt
    simp only [EncodeToString, decodeQuanta,
      decodeMap_encodeURL (a.val / 4) (by omega),
      decodeMap_encodeURL (a.val % 4 * 16) (by omega), decodeMap_padChar]
    simp only [and_self, if_true, Option.some.injEq, List.cons.injEq, and_true]
    apply Fin.ext
    simp only [byte_val]
    omega
  | [a, b] => by
    have ha := a.isLt
    have hb := b.isLt
    simp only [EncodeToString, decodeQuanta,
      decodeMap_encodeURL (a.val / 4) (by omega),
      decodeMap_encodeURL (a.val % 4 * 16 + b.val / 16) (by omega),
      decodeMap_encodeURL (b.val % 16 * 4) (by omega), decodeMap_padChar]
    simp only [and_self, if_true, Option.some.injEq, List.cons.injEq, and_true]
    constructor <;> apply Fin.ext <;> simp only [byte_val] <;> omega
  | a :: b :: c :: rest => by
    have ha := a.isLt
    have hb := b.isLt
    have hc := c.isLt
    simp only [EncodeToString, decodeQuanta,
      decodeMap_encodeURL (a.val / 4) (by omega),
      decodeMap_encodeURL (a.val % 4 * 16 + b.val / 16) (by omega),
      decodeMap_encodeURL (b.val % 16 * 4 + c.val / 64) (by omega),
      decodeMap_encodeURL (c.val % 64) (by omega),
      decodeQuanta_EncodeToString rest]
    simp only [Option.some.injEq, List.cons.injEq, and_true]
    refine ⟨?_, ?_, ?_⟩ <;> apply Fin.ext <;> simp only [byte_val] <;> omega

/-- Decoding inverts encoding: `DecodeString (EncodeToString src)` is `src` with a nil
error. -/
theorem DecodeString_EncodeToString (src : GoString) :
    DecodeString (EncodeToString src) = (src, none) := by
  have hf : (EncodeToString src).filter (fun c => c ≠ byte 10 ∧ c ≠ byte 13)
      = EncodeToString src := by
    apply List.filter_eq_self.mpr
    intro c hc
    have := EncodeToString_no_break src c hc
    simpa using this
  simp only [DecodeString, hf, decodeQuanta_EncodeToString]

theorem Split_no_sep (sep : Byte) : ∀ s : GoString, sep ∉ s → Split s sep = [s]
  | [], _ => rfl
  | b :: bs, h => by
    have hb : b ≠ sep := fun e => h (by simp [e])
    have hbs : sep ∉ bs := fun e => h (by simp [e])
    simp [Split, hb, Split_no_sep sep bs hbs]

theorem Split_append_sep (sep : Byte) (t : GoString) :
    ∀ s : GoString, sep ∉ s → Split (s ++ sep :: t) sep = s :: Split t sep
  | [], _ => by simp [Split]
  | b :: bs, h => by
    have hb : b ≠ sep := fun e => h (by simp [e])
    have hbs : sep ∉ bs := fun e => h (by simp [e])
    simp [Split, hb, Split_append_sep sep t bs hbs]

/-- C4: token decode round trip. For every principal `P` and secret `S` without a `:`
(byte 58), when the reply holds exactly one authorization entry whose token is the
base64url encoding of `P ++ ":" ++ S`, both `GetEcrLoginPassword` and `getLoginPassword`
return `S` with a nil error. -/
theorem login_password_round_trip (P S : GoString) (hP : byte 58 ∉ P) (hS : byte 58 ∉ S) :
    GetEcrLoginPassword (singleToken (EncodeToString (P ++ lit ":" ++ S)))
        = .returned (S, none)
    ∧ getLoginPassword (singleToken (EncodeToString (P ++ lit ":" ++ S)))
        = .returned (S, none) := by
  have hlit : lit ":" = [byte 58] := by decide
  have hsplit : Split (P ++ (lit ":" ++ S)) (byte 58) = [P, S] := by
    rw [hlit, List.singleton_append, Split_append_sep _ _ _ hP, Split_no_sep _ _ hS]
  constructor
  · simp [GetEcrLoginPassword, singleToken, Reply.ok, DecodeString_EncodeToString, hsplit]
  · simp [getLoginPassword, singleToken, Reply.ok, DecodeString_EncodeToString, hsplit]

theorem login_password_round_trip_witness :
    byte 58 ∉ lit "AWS" ∧ byte 58 ∉ lit "secret123"
    ∧ EncodeToString (lit "AWS" ++ lit ":" ++ lit "secret123") = lit "QVdTOnNlY3JldDEyMw=="
    ∧ GetEcrLoginPassword (singleToken (EncodeToString (lit "AWS" ++ lit ":" ++ lit "secret123")))
        = .returned (lit "secret123", none)
    ∧ getLoginPassword (singleToken (EncodeToString (lit "AWS" ++ lit ":" ++ lit "secret123")))
        = .returned (lit "secret123", none) :=
  ⟨by decide, by decide, by decide,
    login_password_round_trip (lit "AWS") (lit "secret123") (by decide) (by decide)⟩

/-! ## Error paths of the credential and enumeration functions -/

/-- C5, the code at the failing inputs: the token `"QVdT"` decodes to `"AWS"` (no `:`)
and `"YTpiOmM="` decodes to `"a:b:c"` (two `:`); for both `GetEcrLoginPassword` of
`pkg/docker-utils` returns the empty string with a nil error (`return "", err` after the
decode has set `err` to nil), where `getLoginPassword` returns a format error. -/
theorem GetEcrLoginPassword_wrong_format_returns_nil_error :
    DecodeString (lit "QVdT") = (lit "AWS", none)
    ∧ (Split (lit "AWS") (byte 58)).length = 1
    ∧ GetEcrLoginPassword (singleToken (lit "QVdT")) = .returned ([], none)
    ∧ DecodeString (lit "YTpiOmM=") = (lit "a:b:c", none)
    ∧ (Split (lit "a:b:c") (byte 58)).length = 3
    ∧ GetEcrLoginPassword (singleToken (lit "YTpiOmM=")) = .returned ([], none)
    ∧ getLoginPassword (singleToken (lit "QVdT"))
        = .returned ([], some (.errorf "unexpected ecr token format")) := by
  decide

/-- C6, the code at the failing inputs: with zero authorization entries and with two,
`GetEcrLoginPassword` of `pkg/docker-utils` returns the empty string with a nil error
(`return "", err` where `err` is the nil error of the token request), where
`getLoginPassword` returns an error for each case. -/
theorem GetEcrLoginPassword_entry_count_returns_nil_error :
    GetEcrLoginPassword (Reply.ok { AuthorizationData := [] }) = .returned ([], none)
    ∧ GetEcrLoginPassword
        (Reply.ok { AuthorizationData :=
          [{ AuthorizationToken := some (lit "QVdTOnNlY3JldDEyMw==") },
           { AuthorizationToken := some (lit "QVdTOm90aGVy") }] })
        = .returned ([], none)
    ∧ getLoginPassword (Reply.ok { AuthorizationData := [] })
        = .returned ([], some (.errorf "ecr token is empty"))
    ∧ getLoginPassword
        (Reply.ok { AuthorizationData :=
          [{ AuthorizationToken := some (lit "QVdTOnNlY3JldDEyMw==") },
           { AuthorizationToken := some (lit "QVdTOm90aGVy") }] })
        = .returned ([], some (.errorfInt "multiple ecr tokens: length" 2)) := by
  decide

/-- C7, the code at the failing inputs. (1) The second fetch fails with a nil response,
as the SDK returns it: `GetEcrContainers` panics on `resp.ImageIds` and returns no error
value. (2) The second fetch fails but its reply carries a response with a continuation
token, and the third fetch succeeds: the error is overwritten and `GetEcrContainers`
returns a nil error with the images of the other pages only. -/
theorem GetEcrContainers_mid_failure_not_reported :
    (GetEcrContainers { Region := lit "us-east-1", RepositoryName := lit "svc" }
        { cfgErr := none,
          pages := [Reply.ok (imagePage [image "d1" "1.0.0-a"] (some "t1")),
                    { resp := none, err := some (.upstream 1) }] }).outcome
      = .panicked
    ∧ (GetEcrContainers { Region := lit "us-east-1", RepositoryName := lit "svc" }
        { cfgErr := none,
          pages := [Reply.ok (imagePage [image "d1" "1.0.0-a"] (some "t1")),
                    { resp := some (imagePage [] (some "t2")), err := some (.upstream 1) },
                    Reply.ok (imagePage [image "d3" "1.0.0-c"] none)] }).outcome
      = .returned ({ ImageIds := [toDockerImage (image "d3" "1.0.0-c"),
                                  toDockerImage (image "d1" "1.0.0-a")] }, none) := by
  decide

/-! ## HTTP handlers -/

theorem RetrieveEcrContainers_responds_last_page (requestBody : RetrieveImagesRequest)
    (p : ListImagesOutput) (rest : List ListImagesOutput)
    (hpages : completePages ListImagesOutput.NextToken (p :: rest) = true)
    (htag : allTagged (p :: rest) = true) :
    (RetrieveEcrContainers (.ok requestBody)
        { cfgErr := none, pages := (p :: rest).map Reply.ok }).outcome
      = .returned [.JSON 200 (.listImagesOutput (lastPage p rest))] := by
  simp only [allTagged, allImageIds, List.all_append, Bool.and_eq_true] at htag
  obtain ⟨htp, htrest⟩ := htag
  have hp := appendImages_tagged p.ImageIds [] htp
  have hloop := listImagesLoop_ok rest
    { RepositoryName := requestBody.RepositoryName, MaxResults := 10,
      TagStatusTagged := true, NextToken := none } p none
    ([] ++ (p.ImageIds.filter
      (fun i => Contains (ToString i.ImageTag) (lit "1.0.0"))).map toDockerImage)
    hpages htrest
  simp only [List.nil_append, ite_self] at hp hloop
  rw [List.map_cons, RetrieveEcrContainers]
  simp only [Reply.ok, hp, hloop]

/-- C3, the code at the failing input: for two successfully fetched pages
`[1.0.0-a, 1.0.0-b]` and `[2.0.0, 1.0.0-c]` the handler `RetrieveEcrContainers` answers
200 with `resp`, the raw last page (entries `2.0.0`, `1.0.0-c`, unfiltered and unsorted),
whereas `GetEcrContainers` returns `1.0.0-c`, `1.0.0-b`, `1.0.0-a` for the same pages. -/
theorem RetrieveEcrContainers_body_is_last_response :
    (RetrieveEcrContainers (.ok { Region := lit "us-east-1", RepositoryName := lit "svc" })
        { cfgErr := none,
          pages := [Reply.ok (imagePage [image "d1" "1.0.0-a", image "d2" "1.0.0-b"]
                      (some "t1")),
                    Reply.ok (imagePage [image "d3" "2.0.0", image "d4" "1.0.0-c"]
                      none)] }).outcome
      = .returned [.JSON 200 (.listImagesOutput
          (imagePage [image "d3" "2.0.0", image "d4" "1.0.0-c"] none))]
    ∧ bodyEntries (.listImagesOutput
          (imagePage [image "d3" "2.0.0", image "d4" "1.0.0-c"] none))
      = [toDockerImage (image "d3" "2.0.0"), toDockerImage (image "d4" "1.0.0-c")]
    ∧ (GetEcrContainers { Region := lit "us-east-1", RepositoryName := lit "svc" }
        { cfgErr := none,
          pages := [Reply.ok (imagePage [image "d1" "1.0.0-a", image "d2" "1.0.0-b"]
                      (some "t1")),
                    Reply.ok (imagePage [image "d3" "2.0.0", image "d4" "1.0.0-c"]
                      none)] }).outcome
      = .returned ({ ImageIds := [toDockerImage (image "d4" "1.0.0-c"),
                                  toDockerImage (image "d2" "1.0.0-b"),
                                  toDockerImage (image "d1" "1.0.0-a")] }, none) := by
  decide

/-- C9, the code at the failing input: the token request returns zero authorization
entries, so `getLoginPassword` returns an error; `retagImages` writes the 400 response and
then, whatever the engine, calls `pullImage` with the user `AWS` and the empty
password. -/
theorem retagImages_pulls_after_failed_login (engine : Engine) :
    getLoginPassword (Reply.ok { AuthorizationData := [] })
      = .returned ([], some (.errorf "ecr token is empty"))
    ∧ (∃ rest : List Event,
      (retagImages
          (.ok { Region := lit "us-east-1", RepositoryName := lit "svc",
                 Tag := lit "1.0.0-dev-1", AccountID := lit "123456789012" })
          none (Reply.ok { AuthorizationData := [] })
          { engine with newClientErr := none }).events
        = .JSON 400 (.error (.errorf "ecr token is empty"))
          :: .pullImage (lit "123456789012.dkr.ecr.us-east-1.amazonaws.com/svc:1.0.0-dev-1")
              { Username := lit "AWS", Password := [] }
          :: rest)
    ∧ (retagImages
          (.ok { Region := lit "us-east-1", RepositoryName := lit "svc",
                 Tag := lit "1.0.0-dev-1", AccountID := lit "123456789012" })
          none (Reply.ok { AuthorizationData := [] }) (sampleEngine none none none)).events
        = [.JSON 400 (.error (.errorf "ecr token is empty")),
           .pullImage (lit "123456789012.dkr.ecr.us-east-1.amazonaws.com/svc:1.0.0-dev-1")
              { Username := lit "AWS", Password := [] },
           .ImagePull (lit "123456789012.dkr.ecr.us-east-1.amazonaws.com/svc:1.0.0-dev-1")
              (EncodeToString (lit "user=AWS;password="))] := by
  refine ⟨by decide, ?_, by decide⟩
  have himg : imageRef (lit "123456789012") (lit "us-east-1") (lit "svc") (lit "1.0.0-dev-1")
      = lit "123456789012.dkr.ecr.us-east-1.amazonaws.com/svc:1.0.0-dev-1" := by decide
  have hlogin : getLoginPassword (Reply.ok { AuthorizationData := [] })
      = .returned ([], some (.errorf "ecr token is empty")) := by decide
  simp only [retagImages, hlogin, himg]
  exact ⟨_, rfl⟩

/-! ## Consumer entry point -/

/-- C10, counterexample: with an engine whose `ImagePull` fails, `PullImage` returns the
error, and the consumer's `main` still invokes `RetagAndPushImage`, which tags and pushes;
`main` returns normally. -/
theorem consumer_main_retags_after_failed_pull :
    (PullImage (sampleEngine (some (.upstream 7)) none none)
        { Username := lit "AWS", Password := lit "secret123" } (consumerRequest (lit "svc"))).2
      = some (.upstream 7)
    ∧ consumer.main (lit "svc") (singleToken (lit "QVdTOnNlY3JldDEyMw=="))
        (sampleEngine (some (.upstream 7)) none none)
      = { events :=
            [.PullImage { Username := lit "AWS", Password := lit "secret123" }
               (consumerRequest (lit "svc")),
             .ImagePull (lit "656715373819.dkr.ecr.us-east-1.amazonaws.com/svc:1.0.0-dev-2693")
               (EncodeToString (lit "user=AWS;password=secret123")),
             .RetagAndPushImage { Username := lit "AWS", Password := lit "secret123" }
               (consumerRequest (lit "svc")),
             .ImageTag (lit "656715373819.dkr.ecr.us-east-1.amazonaws.com/svc:1.0.0-dev-2693")
               (lit "656715373819.dkr.ecr.us-east-1.amazonaws.com/svc:latest"),
             .ImagePush (lit "656715373819.dkr.ecr.us-east-1.amazonaws.com/svc:latest")
               (EncodeToString (lit "user=AWS;password=secret123"))],
          outcome := .returned () } := by
  decide

theorem RetagAndPushImage_starts_with_tag (engine : Engine) (auth : AuthConfig)
    (retagImage : ImageRequest) :
    ∃ rest : List Event,
      (RetagAndPushImage engine auth retagImage).1
        = .ImageTag
            (imageRef retagImage.AccountID retagImage.Region retagImage.RepositoryName
              retagImage.Tag)
            (imageRef retagImage.AccountID retagImage.Region retagImage.RepositoryName
              (lit "latest"))
          :: rest
      ∧ (engine.imageTag ≠ none → rest = []) := by
  unfold RetagAndPushImage
  cases htag : engine.imageTag with
  | some e => exact ⟨[], rfl, fun _ => rfl⟩
  | none =>
    rcases hm : engine.marshal auth with ⟨data, merr⟩
    cases merr with
    | some e => exact ⟨[], rfl, fun _ => rfl⟩
    | none =>
      cases hpush : engine.imagePush with
      | some e => exact ⟨_, rfl, fun h => absurd rfl h⟩
      | none =>
        cases hcopy : engine.pushCopy with
        | some e => exact ⟨_, rfl, fun h => absurd rfl h⟩
        | none => exact ⟨_, rfl, fun h => absurd rfl h⟩

/-! ## General form of the error paths -/

theorem GetEcrLoginPassword_format_nil_error (payload : GoString)
    (h : (Split payload (byte 58)).length ≠ 2) :
    GetEcrLoginPassword (singleToken (EncodeToString payload)) = .returned ([], none) := by
  simp [GetEcrLoginPassword, singleToken, Reply.ok, DecodeString_EncodeToString, h]

theorem GetEcrLoginPassword_count_nil_error (out : GetAuthorizationTokenOutput)
    (h : out.AuthorizationData.length ≠ 1) :
    GetEcrLoginPassword (Reply.ok out) = .returned ([], none) := by
  simp only [GetEcrLoginPassword, Reply.ok]
  by_cases h0 : out.AuthorizationData.length = 0
  · simp [h0]
  · have h1 : out.AuthorizationData.length > 1 := by omega
    simp [h0, h1]

theorem describeRepositoriesLoop_ignores_errors (script : List (Reply DescribeRepositoriesOutput)) :
    ∀ (input : DescribeRepositoriesInput) (resp : DescribeRepositoriesOutput)
      (err err1 : Option Err) (repos : List ECRRepository),
      (describeRepositoriesLoop script input resp err repos).calls
        = (describeRepositoriesLoop (script.map (fun r => { r with err := none })) input resp
            err1 repos).calls
      ∧ (match (describeRepositoriesLoop script input resp err repos).outcome,
            (describeRepositoriesLoop (script.map (fun r => { r with err := none })) input resp
              err1 repos).outcome with
          | .returned (a, _), .returned (b, _) => a = b
          | .panicked, .panicked => True
          | .blocked, .blocked => True
          | _, _ => False) := by
  induction script with
  | nil =>
    intro input resp err err1 repos
    cases hn : resp.NextToken <;> simp [describeRepositoriesLoop, hn]
  | cons reply rest ih =>
    intro input resp err err1 repos
    cases hn : resp.NextToken with
    | none => simp [describeRepositoriesLoop, hn]
    | some tok =>
      cases hr : reply.resp with
      | none => simp [describeRepositoriesLoop, hn, hr]
      | some r =>
        have := ih { input with NextToken := some tok } r reply.err none
          (appendRepositories repos r.Repositories)
        rw [List.map_cons, describeRepositoriesLoop, describeRepositoriesLoop]
        simp only [hn, hr]
        exact ⟨by rw [this.1], this.2⟩

/-- What `GetEcrRepositories` returns does not depend on the errors of the fetches: with
every error of the script replaced by nil the calls and the outcome are the same. -/
theorem GetEcrRepositories_ignores_errors (env : ReposEnv) :
    GetEcrRepositories env
      = GetEcrRepositories
          { env with pages := env.pages.map (fun r => { r with err := none }) } := by
  cases hc : env.cfgErr with
  | some e => simp [GetEcrRepositories, hc]
  | none =>
    cases hp : env.pages with
    | nil => simp [GetEcrRepositories, hc, hp]
    | cons reply rest =>
      cases hr : reply.resp with
      | none => simp [GetEcrRepositories, hc, hp, hr]
      | some resp =>
        have := describeRepositoriesLoop_ignores_errors rest
          { MaxResults := 10, NextToken := none } resp reply.err none
          (appendRepositories [] resp.Repositories)
        obtain ⟨hcalls, hout⟩ := this
        simp only [GetEcrRepositories, hc, hp, hr, List.map_cons, hcalls]
        congr 1
        revert hout
        generalize (describeRepositoriesLoop rest _ resp reply.err _).outcome = o1
        generalize (describeRepositoriesLoop (rest.map _) _ resp none _).outcome = o2
        intro hout
        rcases o1 with ⟨a, e1⟩ | _ | _ <;> rcases o2 with ⟨b, e2⟩ | _ | _ <;>
          simp_all

/-! ## Image references -/

/-- C11: for every request `r`, every engine call of `PullImage` is a pull of
`r.AccountID ++ ".dkr.ecr." ++ r.Region ++ ".amazonaws.com/" ++ r.RepositoryName ++ ":" ++
r.Tag`, and that pull is issued whenever the credentials marshal; `RetagAndPushImage`
given the same `r` first tags exactly that reference to the reference with the same
account, region and repository and the tag `latest`, every later engine call is a push
of that destination, and the push is issued whenever the tag succeeds and the credentials
marshal. -/
theorem PullImage_RetagAndPushImage_references (engine : Engine) (auth : AuthConfig)
    (r : ImageRequest) :
    (∀ e ∈ (PullImage engine auth r).1, ∃ registryAuth : GoString,
        e = .ImagePull
          (r.AccountID ++ lit ".dkr.ecr." ++ r.Region ++ lit ".amazonaws.com/"
            ++ r.RepositoryName ++ lit ":" ++ r.Tag) registryAuth)
    ∧ ((engine.marshal auth).2 = none →
        (PullImage engine auth r).1
          = [.ImagePull
              (r.AccountID ++ lit ".dkr.ecr." ++ r.Region ++ lit ".amazonaws.com/"
                ++ r.RepositoryName ++ lit ":" ++ r.Tag)
              (EncodeToString (engine.marshal auth).1)])
    ∧ (∃ rest : List Event,
        (RetagAndPushImage engine auth r).1
          = .ImageTag
              (r.AccountID ++ lit ".dkr.ecr." ++ r.Region ++ lit ".amazonaws.com/"
                ++ r.RepositoryName ++ lit ":" ++ r.Tag)
              (r.AccountID ++ lit ".dkr.ecr." ++ r.Region ++ lit ".amazonaws.com/"
                ++ r.RepositoryName ++ lit ":" ++ lit "latest")
            :: rest
        ∧ ∀ e ∈ rest, ∃ registryAuth : GoString,
            e = .ImagePush
              (r.AccountID ++ lit ".dkr.ecr." ++ r.Region ++ lit ".amazonaws.com/"
                ++ r.RepositoryName ++ lit ":" ++ lit "latest") registryAuth)
    ∧ (engine.imageTag = none → (engine.marshal auth).2 = none →
        (RetagAndPushImage engine auth r).1
          = [.ImageTag
              (r.AccountID ++ lit ".dkr.ecr." ++ r.Region ++ lit ".amazonaws.com/"
                ++ r.RepositoryName ++ lit ":" ++ r.Tag)
              (r.AccountID ++ lit ".dkr.ecr." ++ r.Region ++ lit ".amazonaws.com/"
                ++ r.RepositoryName ++ lit ":" ++ lit "latest"),
             .ImagePush
              (r.AccountID ++ lit ".dkr.ecr." ++ r.Region ++ lit ".amazonaws.com/"
                ++ r.RepositoryName ++ lit ":" ++ lit "latest")
              (EncodeToString (engine.marshal auth).1)]) := by
  rcases hm : engine.marshal auth with ⟨data, merr⟩
  refine ⟨?_, ?_, ?_, ?_⟩
  · intro e he
    unfold PullImage at he
    rw [hm] at he
    cases merr with
    | some x => simp at he
    | none =>
      cases hp : engine.imagePull with
      | some x =>
        simp only [hp, List.mem_singleton] at he
        exact ⟨_, by rw [he]; rfl⟩
      | none =>
        cases hc : engine.pullCopy with
        | some x =>
          simp only [hp, hc, List.mem_singleton] at he
          exact ⟨_, by rw [he]; rfl⟩
        | none =>
          simp only [hp, hc, List.mem_singleton] at he
          exact ⟨_, by rw [he]; rfl⟩
  · intro h
    simp only at h
    subst h
    unfold PullImage
    rw [hm]
    cases hp : engine.imagePull with
    | some x => rfl
    | none => cases hc : engine.pullCopy <;> rfl
  · unfold RetagAndPushImage
    rw [hm]
    cases ht : engine.imageTag with
    | some x => exact ⟨[], rfl, by simp⟩
    | none =>
      cases merr with
      | some x => exact ⟨[], rfl, by simp⟩
      | none =>
        cases hp : engine.imagePush with
        | some x => exact ⟨[_], rfl, fun e he => ⟨EncodeToString data, List.mem_singleton.mp he⟩⟩
        | none =>
          cases hc : engine.pushCopy with
          | some x => exact ⟨[_], rfl, fun e he => ⟨EncodeToString data, List.mem_singleton.mp he⟩⟩
          | none => exact ⟨[_], rfl, fun e he => ⟨EncodeToString data, List.mem_singleton.mp he⟩⟩
  · intro ht h
    simp only at h
    subst h
    unfold RetagAndPushImage
    rw [hm, ht]
    cases hp : engine.imagePush with
    | some x => rfl
    | none => cases hc : engine.pushCopy <;> rfl

theorem PullImage_RetagAndPushImage_references_witness :
    ((sampleEngine none none none).marshal
        { Username := lit "AWS", Password := lit "secret123" }).2 = none
    ∧ (PullImage (sampleEngine none none none)
          { Username := lit "AWS", Password := lit "secret123" }
          { Region := lit "us-east-1", RepositoryName := lit "svc", Tag := lit "1.0.0-dev-1",
            AccountID := lit "123456789012" }).1
        = [.ImagePull (lit "123456789012.dkr.ecr.us-east-1.amazonaws.com/svc:1.0.0-dev-1")
            (EncodeToString (lit "user=AWS;password=secret123"))]
    ∧ (RetagAndPushImage (sampleEngine none none none)
          { Username := lit "AWS", Password := lit "secret123" }
          { Region := lit "us-east-1", RepositoryName := lit "svc", Tag := lit "1.0.0-dev-1",
            AccountID := lit "123456789012" }).1
        = [.ImageTag (lit "123456789012.dkr.ecr.us-east-1.amazonaws.com/svc:1.0.0-dev-1")
            (lit "123456789012.dkr.ecr.us-east-1.amazonaws.com/svc:latest"),
           .ImagePush (lit "123456789012.dkr.ecr.us-east-1.amazonaws.com/svc:latest")
            (EncodeToString (lit "user=AWS;password=secret123"))]
    ∧ (PullImage (sampleEngine none none none)
          { Username := lit "AWS", Password := lit "secret123" }
          { Region := lit "us-east-1", RepositoryName := lit "svc", Tag := lit "1.0.0-dev-1",
            AccountID := lit "123456789012" }).1
        = [.ImagePull
            (lit "123456789012" ++ lit ".dkr.ecr." ++ lit "us-east-1" ++ lit ".amazonaws.com/"
              ++ lit "svc" ++ lit ":" ++ lit "1.0.0-dev-1")
            (EncodeToString ((sampleEngine none none none).marshal
              { Username := lit "AWS", Password := lit "secret123" }).1)]
    ∧ (RetagAndPushImage (sampleEngine none none none)
          { Username := lit "AWS", Password := lit "secret123" }
          { Region := lit "us-east-1", RepositoryName := lit "svc", Tag := lit "1.0.0-dev-1",
            AccountID := lit "123456789012" }).1
        = [.ImageTag
            (lit "123456789012" ++ lit ".dkr.ecr." ++ lit "us-east-1" ++ lit ".amazonaws.com/"
              ++ lit "svc" ++ lit ":" ++ lit "1.0.0-dev-1")
            (lit "123456789012" ++ lit ".dkr.ecr." ++ lit "us-east-1" ++ lit ".amazonaws.com/"
              ++ lit "svc" ++ lit ":" ++ lit "latest"),
           .ImagePush
            (lit "123456789012" ++ lit ".dkr.ecr." ++ lit "us-east-1" ++ lit ".amazonaws.com/"
              ++ lit "svc" ++ lit ":" ++ lit "latest")
            (EncodeToString ((sampleEngine none none none).marshal
              { Username := lit "AWS", Password := lit "secret123" }).1)] :=
  ⟨by decide, by decide, by decide,
    (PullImage_RetagAndPushImage_references (sampleEngine none none none)
      { Username := lit "AWS", Password := lit "secret123" }
      { Region := lit "us-east-1", RepositoryName := lit "svc", Tag := lit "1.0.0-dev-1",
        AccountID := lit "123456789012" }).2.1 (by decide),
    (PullImage_RetagAndPushImage_references (sampleEngine none none none)
      { Username := lit "AWS", Password := lit "secret123" }
      { Region := lit "us-east-1", RepositoryName := lit "svc", Tag := lit "1.0.0-dev-1",
        AccountID := lit "123456789012" }).2.2.2 (by decide) (by decide)⟩

/-! ## Failure conditions of getLoginPassword -/

theorem Split_length (sep : Byte) : ∀ s : GoString, (Split s sep).length = s.count sep + 1
  | [] => rfl
  | b :: bs => by
    have ih := Split_length sep bs
    by_cases hb : b = sep
    · subst hb
      simp [Split, ih]
    · have hne : (b == sep) = false := by simpa using hb
      rw [List.count_cons, hne]
      simp only [Split, hb, if_false]
      cases hs : Split bs sep with
      | nil => rw [hs] at ih; simp at ih
      | cons piece pieces => rw [hs] at ih; simpa using ih

theorem count_one_split (sep : Byte) : ∀ s : GoString, s.count sep = 1 →
    ∃ P S : GoString, s = P ++ sep :: S ∧ sep ∉ P ∧ sep ∉ S
  | [], h => by simp at h
  | b :: bs, h => by
    by_cases hb : b = sep
    · subst hb
      have h0 : bs.count b = 0 := by simpa using h
      exact ⟨[], bs, rfl, by simp, List.count_eq_zero.mp h0⟩
    · have hne : (b == sep) = false := by simpa using hb
      rw [List.count_cons, hne] at h
      obtain ⟨P, S, hs, hP, hS⟩ := count_one_split sep bs (by simpa using h)
      refine ⟨b :: P, S, by rw [hs]; rfl, ?_, hS⟩
      intro hmem
      rcases List.mem_cons.mp hmem with h1 | h1
      · exact hb h1.symm
      · exact hP h1

/-- C12: for every reply of the token request (the SDK returns an output whenever it
returns no error), `getLoginPassword` returns, and its error is non-nil exactly when the
request failed, or zero entries were returned, or more than one, or the single entry's
token is null, or the token is not valid base64url, or the decoded payload does not
contain exactly one `:`; otherwise the payload is `P ++ ":" ++ S` and the result is the
second part `S` with a nil error. The errors of the zero-entry, multiple-entry and
null-token cases are pairwise distinct. -/
theorem getLoginPassword_error_iff (tkn : Reply GetAuthorizationTokenOutput)
    (hwf : tkn.err = none → tkn.resp ≠ none) :
    (∃ (pwd : GoString) (err : Option Err),
      getLoginPassword tkn = .returned (pwd, err)
      ∧ (err ≠ none ↔ loginFails tkn = true)
      ∧ (err = none → ∃ (out : GetAuthorizationTokenOutput) (str P S : GoString),
            tkn.resp = some out
            ∧ out.AuthorizationData = [{ AuthorizationToken := some str }]
            ∧ DecodeString str = (P ++ byte 58 :: S, none)
            ∧ byte 58 ∉ P ∧ byte 58 ∉ S ∧ pwd = S))
    ∧ (∀ out0 outN out1 : GetAuthorizationTokenOutput,
        out0.AuthorizationData.length = 0 → outN.AuthorizationData.length > 1 →
        out1.AuthorizationData = [{ AuthorizationToken := none }] →
        ∃ e0 eN e1 : Err,
          getLoginPassword (Reply.ok out0) = .returned ([], some e0)
          ∧ getLoginPassword (Reply.ok outN) = .returned ([], some eN)
          ∧ getLoginPassword (Reply.ok out1) = .returned ([], some e1)
          ∧ e0 ≠ eN ∧ e0 ≠ e1 ∧ eN ≠ e1) := by
  constructor
  · cases herr : tkn.err with
    | some e =>
      refine ⟨[], some (.wrap "failed to retrieve ecr token" e), ?_, ?_, ?_⟩
      · simp [getLoginPassword, herr]
      · simp [loginFails, herr]
      · intro h; simp at h
    | none =>
      cases hresp : tkn.resp with
      | none => exact absurd hresp (hwf herr)
      | some out =>
        rcases hdata : out.AuthorizationData with _ | ⟨entry, _ | ⟨entry2, more⟩⟩
        · refine ⟨[], some (.errorf "ecr token is empty"), ?_, ?_, ?_⟩
          · simp [getLoginPassword, herr, hresp, hdata]
          · simp [loginFails, herr, hresp, hdata]
          · intro h; simp at h
        · cases htok : entry.AuthorizationToken with
          | none =>
            refine ⟨[], some (.errorf "ecr token is nil"), ?_, ?_, ?_⟩
            · simp [getLoginPassword, herr, hresp, hdata, htok]
            · simp [loginFails, herr, hresp, hdata, htok]
            · intro h; simp at h
          | some str =>
            rcases hdec : DecodeString str with ⟨dec, derr⟩
            cases derr with
            | some e =>
              refine ⟨[], some (.wrap "failed to decode ecr token" e), ?_, ?_, ?_⟩
              · simp [getLoginPassword, herr, hresp, hdata, htok, hdec]
              · simp [loginFails, herr, hresp, hdata, htok, hdec]
              · intro h; simp at h
            | none =>
              by_cases hcount : dec.count (byte 58) = 1
              · obtain ⟨P, S, hs, hP, hS⟩ := count_one_split (byte 58) dec hcount
                have hsplit : Split dec (byte 58) = [P, S] := by
                  rw [hs, Split_append_sep _ _ _ hP, Split_no_sep _ _ hS]
                refine ⟨S, none, ?_, ?_, ?_⟩
                · simp [getLoginPassword, herr, hresp, hdata, htok, hdec, hsplit]
                · simp [loginFails, herr, hresp, hdata, htok, hdec, hcount]
                · intro _
                  refine ⟨out, str, P, S, rfl, ?_, ?_, hP, hS, rfl⟩
                  · rw [hdata]
                    cases entry
                    simp only at htok
                    rw [htok]
                  · rw [hdec, hs]
              · have hlen : (Split dec (byte 58)).length ≠ 2 := by
                  rw [Split_length]; omega
                refine ⟨[], some (.errorf "unexpected ecr token format"), ?_, ?_, ?_⟩
                · simp [getLoginPassword, herr, hresp, hdata, htok, hdec, hlen]
                · simp [loginFails, herr, hresp, hdata, htok, hdec, hcount]
                · intro h; simp at h
        · refine ⟨[], some (.errorfInt "multiple ecr tokens: length" (more.length + 2)),
            ?_, ?_, ?_⟩
          · simp [getLoginPassword, herr, hresp, hdata]
          · simp [loginFails, herr, hresp, hdata]
          · intro h; simp at h
  · intro out0 outN out1 h0 hN h1
    refine ⟨.errorf "ecr token is empty",
      .errorfInt "multiple ecr tokens: length" outN.AuthorizationData.length,
      .errorf "ecr token is nil", ?_, ?_, ?_, ?_, ?_, ?_⟩
    · simp [getLoginPassword, Reply.ok, h0]
    · have hne : ¬ outN.AuthorizationData.length = 0 := by omega
      simp [getLoginPassword, Reply.ok, hne, hN]
    · simp [getLoginPassword, Reply.ok, h1]
    · intro h; cases h
    · decide
    · intro h; cases h

theorem getLoginPassword_error_iff_witness :
    ((singleToken (lit "QVdTOnNlY3JldDEyMw==")).err = none →
        (singleToken (lit "QVdTOnNlY3JldDEyMw==")).resp ≠ none)
    ∧ loginFails (singleToken (lit "QVdTOnNlY3JldDEyMw==")) = false
    ∧ getLoginPassword (singleToken (lit "QVdTOnNlY3JldDEyMw=="))
        = .returned (lit "secret123", none)
    ∧ loginFails (singleToken (lit "QVdT")) = true
    ∧ loginFails (singleToken (lit "QVdTOnNlY3JldDEyMw")) = true
    ∧ loginFails (Reply.ok { AuthorizationData := [] }) = true
    ∧ loginFails { resp := none, err := some (.upstream 1) } = true
    ∧ ∃ (pwd : GoString) (err : Option Err),
      getLoginPassword (singleToken (lit "QVdTOnNlY3JldDEyMw==")) = .returned (pwd, err)
      ∧ (err ≠ none ↔ loginFails (singleToken (lit "QVdTOnNlY3JldDEyMw==")) = true)
      ∧ (err = none → ∃ (out : GetAuthorizationTokenOutput) (str P S : GoString),
            (singleToken (lit "QVdTOnNlY3JldDEyMw==")).resp = some out
            ∧ out.AuthorizationData = [{ AuthorizationToken := some str }]
            ∧ DecodeString str = (P ++ byte 58 :: S, none)
            ∧ byte 58 ∉ P ∧ byte 58 ∉ S ∧ pwd = S) :=
  ⟨by decide, by decide, by decide, by decide, by decide, by decide, by decide,
    (getLoginPassword_error_iff (singleToken (lit "QVdTOnNlY3JldDEyMw==")) (by decide)).1⟩

/-! ## Cursor threading -/

theorem completePages_dropLast_some {α : Type} (next : α → Option GoString) :
    ∀ ps : List α, completePages next ps = true → ∀ q ∈ ps.dropLast, next q ≠ none
  | [], h => by simp [completePages] at h
  | [p], _ => by simp
  | p :: q :: rest, h => by
    simp only [completePages, Bool.and_eq_true] at h
    intro x hx
    rw [List.dropLast_cons₂] at hx
    rcases List.mem_cons.mp hx with rfl | hx
    · intro hn; rw [hn] at h; simp at h
    · exact completePages_dropLast_some next (q :: rest) h.2 x hx

theorem listImagesLoop_calls (rest : List ListImagesOutput) :
    ∀ (extra : List (Reply ListImagesOutput)) (input : ListImagesInput)
      (p : ListImagesOutput) (err : Option Err) (acc : List DockerImage),
      completePages ListImagesOutput.NextToken (p :: rest) = true →
      allTagged rest = true →
      (listImagesLoop (rest.map Reply.ok ++ extra) input p err acc).calls =
        (p :: rest).dropLast.map (fun q => { input with NextToken := q.NextToken }) := by
  induction rest with
  | nil =>
    intro extra input p err acc h _
    simp only [completePages, Option.isNone_iff_eq_none] at h
    cases extra <;> simp [listImagesLoop, h]
  | cons q rest ih =>
    intro extra input p err acc h ht
    simp only [completePages, Bool.and_eq_true, Option.isSome_iff_exists] at h
    obtain ⟨⟨tok, htok⟩, hrest⟩ := h
    simp only [allTagged, allImageIds, List.all_append, Bool.and_eq_true] at ht
    obtain ⟨htq, htrest⟩ := ht
    have hq := appendImages_tagged q.ImageIds acc htq
    have := ih extra { input with NextToken := some tok } q none
      (acc ++ (q.ImageIds.filter
        (fun i => Contains (ToString i.ImageTag) (lit "1.0.0"))).map toDockerImage) hrest htrest
    rw [List.map_cons, List.cons_append, listImagesLoop]
    simp only [htok, Reply.ok, hq, this, List.dropLast_cons₂, List.map_cons]

theorem describeRepositoriesLoop_calls (rest : List DescribeRepositoriesOutput) :
    ∀ (extra : List (Reply DescribeRepositoriesOutput)) (input : DescribeRepositoriesInput)
      (p : DescribeRepositoriesOutput) (err : Option Err) (acc : List ECRRepository),
      completePages DescribeRepositoriesOutput.NextToken (p :: rest) = true →
      (describeRepositoriesLoop (rest.map Reply.ok ++ extra) input p err acc).calls =
        (p :: rest).dropLast.map (fun q => { input with NextToken := q.NextToken }) := by
  induction rest with
  | nil =>
    intro extra input p err acc h
    simp only [completePages, Option.isNone_iff_eq_none] at h
    cases extra <;> simp [describeRepositoriesLoop, h]
  | cons q rest ih =>
    intro extra input p err acc h
    simp only [completePages, Bool.and_eq_true, Option.isSome_iff_exists] at h
    obtain ⟨⟨tok, htok⟩, hrest⟩ := h
    have := ih extra { input with NextToken := some tok } q none
      (appendRepositories acc q.Repositories) hrest
    rw [List.map_cons, List.cons_append, describeRepositoriesLoop]
    simp only [htok, Reply.ok, this, List.dropLast_cons₂, List.map_cons]

theorem cursor_index {α : Type} (next : α → Option GoString) (ps : List α) (k : Nat)
    (hk : k + 1 < ps.length) :
    (none :: ps.dropLast.map next)[k + 1]? = (ps.map next)[k]? := by
  have hk1 : k < ps.length - 1 := by omega
  have hk2 : k < ps.length := by omega
  simp [List.getElem?_dropLast, hk1, List.getElem?_eq_getElem hk2]

/-- C13 as amended: cursor threading. For a complete image page sequence `ps` whose images
all carry a tag and a complete repository page sequence `qs`, both answered without error
(whatever replies the script holds after them), `GetEcrContainers` and
`GetEcrRepositories` make exactly one list call per page; the first call carries no
continuation cursor, call `k + 2` carries exactly the `NextToken` returned by call `k + 1`
(a non-nil token), the other fields of the input staying as in the first call; nothing is
fetched after the first page whose `NextToken` is nil. -/
theorem enumeration_cursor_threading (ecrRequest : RetrieveImagesRequest)
    (ps : List ListImagesOutput) (extraImages : List (Reply ListImagesOutput))
    (qs : List DescribeRepositoriesOutput)
    (extraRepos : List (Reply DescribeRepositoriesOutput))
    (hps : completePages ListImagesOutput.NextToken ps = true)
    (htag : allTagged ps = true)
    (hqs : completePages DescribeRepositoriesOutput.NextToken qs = true) :
    ((GetEcrContainers ecrRequest
          { cfgErr := none, pages := ps.map Reply.ok ++ extraImages }).calls
        = (none :: ps.dropLast.map ListImagesOutput.NextToken).map
            (fun cursor => { RepositoryName := ecrRequest.RepositoryName, MaxResults := 10,
                             TagStatusTagged := true, NextToken := cursor })
      ∧ (GetEcrContainers ecrRequest
          { cfgErr := none, pages := ps.map Reply.ok ++ extraImages }).calls.length
        = ps.length
      ∧ (∀ k : Nat, k + 1 < ps.length →
          ((GetEcrContainers ecrRequest
              { cfgErr := none, pages := ps.map Reply.ok ++ extraImages }).calls.map
              ListImagesInput.NextToken)[k + 1]?
            = (ps.map ListImagesOutput.NextToken)[k]?)
      ∧ (∀ q ∈ ps.dropLast, q.NextToken ≠ none))
    ∧ ((GetEcrRepositories
          { cfgErr := none, pages := qs.map Reply.ok ++ extraRepos }).calls
        = (none :: qs.dropLast.map DescribeRepositoriesOutput.NextToken).map
            (fun cursor => { MaxResults := 10, NextToken := cursor })
      ∧ (GetEcrRepositories
          { cfgErr := none, pages := qs.map Reply.ok ++ extraRepos }).calls.length
        = qs.length
      ∧ (∀ k : Nat, k + 1 < qs.length →
          ((GetEcrRepositories
              { cfgErr := none, pages := qs.map Reply.ok ++ extraRepos }).calls.map
              DescribeRepositoriesInput.NextToken)[k + 1]?
            = (qs.map DescribeRepositoriesOutput.NextToken)[k]?)
      ∧ (∀ q ∈ qs.dropLast, q.NextToken ≠ none)) := by
  have himg : (GetEcrContainers ecrRequest
        { cfgErr := none, pages := ps.map Reply.ok ++ extraImages }).calls
      = (none :: ps.dropLast.map ListImagesOutput.NextToken).map
          (fun cursor => { RepositoryName := ecrRequest.RepositoryName, MaxResults := 10,
                           TagStatusTagged := true, NextToken := cursor }) := by
    cases ps with
    | nil => simp [completePages] at hps
    | cons p rest =>
      simp only [allTagged, allImageIds, List.all_append, Bool.and_eq_true] at htag
      obtain ⟨htp, htrest⟩ := htag
      have hp := appendImages_tagged p.ImageIds [] htp
      have hcalls := listImagesLoop_calls rest extraImages
        { RepositoryName := ecrRequest.RepositoryName, MaxResults := 10,
          TagStatusTagged := true, NextToken := none } p none
        ([] ++ (p.ImageIds.filter
          (fun i => Contains (ToString i.ImageTag) (lit "1.0.0"))).map toDockerImage)
        hps htrest
      rw [List.map_cons, List.cons_append, GetEcrContainers]
      simp only [Reply.ok, hp, hcalls, List.map_cons, List.map_map]
      rfl
  have hrepo : (GetEcrRepositories
        { cfgErr := none, pages := qs.map Reply.ok ++ extraRepos }).calls
      = (none :: qs.dropLast.map DescribeRepositoriesOutput.NextToken).map
          (fun cursor => { MaxResults := 10, NextToken := cursor }) := by
    cases qs with
    | nil => simp [completePages] at hqs
    | cons p rest =>
      have hcalls := describeRepositoriesLoop_calls rest extraRepos
        { MaxResults := 10, NextToken := none } p none
        (appendRepositories [] p.Repositories) hqs
      rw [List.map_cons, List.cons_append, GetEcrRepositories]
      simp only [Reply.ok, hcalls, List.map_cons, List.map_map]
      rfl
  have hlenp : 0 < ps.length := by
    cases ps with
    | nil => simp [completePages] at hps
    | cons p rest => simp
  have hlenq : 0 < qs.length := by
    cases qs with
    | nil => simp [completePages] at hqs
    | cons p rest => simp
  refine ⟨⟨himg, ?_, ?_, completePages_dropLast_some _ ps hps⟩,
    ⟨hrepo, ?_, ?_, completePages_dropLast_some _ qs hqs⟩⟩
  · rw [himg]
    simp only [List.length_map, List.length_cons, List.length_dropLast]
    omega
  · intro k hk
    rw [himg, List.map_map]
    have : (List.map (ListImagesInput.NextToken ∘ fun cursor =>
        ({ RepositoryName := ecrRequest.RepositoryName, MaxResults := 10,
           TagStatusTagged := true, NextToken := cursor } : ListImagesInput))
        (none :: ps.dropLast.map ListImagesOutput.NextToken))
        = none :: ps.dropLast.map ListImagesOutput.NextToken := by
      simp [Function.comp_def]
    rw [this]
    exact cursor_index _ ps k hk
  · rw [hrepo]
    simp only [List.length_map, List.length_cons, List.length_dropLast]
    omega
  · intro k hk
    rw [hrepo, List.map_map]
    have : (List.map (DescribeRepositoriesInput.NextToken ∘ fun cursor =>
        ({ MaxResults := 10, NextToken := cursor } : DescribeRepositoriesInput))
        (none :: qs.dropLast.map DescribeRepositoriesOutput.NextToken))
        = none :: qs.dropLast.map DescribeRepositoriesOutput.NextToken := by
      simp [Function.comp_def]
    rw [this]
    exact cursor_index _ qs k hk

theorem enumeration_cursor_threading_witness :
    completePages ListImagesOutput.NextToken
        [imagePage [image "d1" "1.0.0-a"] (some "t1"), imagePage [image "d2" "2.0.0"] (some "t2"),
         imagePage [image "d3" "1.0.0-c"] none] = true
    ∧ allTagged
        [imagePage [image "d1" "1.0.0-a"] (some "t1"), imagePage [image "d2" "2.0.0"] (some "t2"),
         imagePage [image "d3" "1.0.0-c"] none] = true
    ∧ completePages DescribeRepositoriesOutput.NextToken
        [repoPage ["zeta", "alpha"] (some "r1"), repoPage ["mu"] none] = true
    ∧ (GetEcrContainers { Region := lit "us-east-1", RepositoryName := lit "svc" }
          { cfgErr := none,
            pages := [imagePage [image "d1" "1.0.0-a"] (some "t1"),
                      imagePage [image "d2" "2.0.0"] (some "t2"),
                      imagePage [image "d3" "1.0.0-c"] none].map Reply.ok
                ++ [Reply.ok (imagePage [image "d4" "1.0.0-d"] none)] }).calls.map
          ListImagesInput.NextToken
        = [none, some (lit "t1"), some (lit "t2")]
    ∧ (GetEcrRepositories
          { cfgErr := none,
            pages := [repoPage ["zeta", "alpha"] (some "r1"), repoPage ["mu"] none].map
                Reply.ok
                ++ [Reply.ok (repoPage ["omega"] none)] }).calls.map
          DescribeRepositoriesInput.NextToken
        = [none, some (lit "r1")]
    ∧ (GetEcrContainers { Region := lit "us-east-1", RepositoryName := lit "svc" }
          { cfgErr := none,
            pages := [imagePage [image "d1" "1.0.0-a"] (some "t1"),
                      imagePage [image "d2" "2.0.0"] (some "t2"),
                      imagePage [image "d3" "1.0.0-c"] none].map Reply.ok
                ++ [Reply.ok (imagePage [image "d4" "1.0.0-d"] none)] }).calls.length
        = [imagePage [image "d1" "1.0.0-a"] (some "t1"),
           imagePage [image "d2" "2.0.0"] (some "t2"),
           imagePage [image "d3" "1.0.0-c"] none].length
    ∧ (GetEcrRepositories
          { cfgErr := none,
            pages := [repoPage ["zeta", "alpha"] (some "r1"), repoPage ["mu"] none].map
                Reply.ok
                ++ [Reply.ok (repoPage ["omega"] none)] }).calls.length
        = [repoPage ["zeta", "alpha"] (some "r1"), repoPage ["mu"] none].length :=
  ⟨by decide, by decide, by decide, by decide, by decide,
    (enumeration_cursor_threading { Region := lit "us-east-1", RepositoryName := lit "svc" }
      [imagePage [image "d1" "1.0.0-a"] (some "t1"), imagePage [image "d2" "2.0.0"] (some "t2"),
       imagePage [image "d3" "1.0.0-c"] none]
      [Reply.ok (imagePage [image "d4" "1.0.0-d"] none)]
      [repoPage ["zeta", "alpha"] (some "r1"), repoPage ["mu"] none]
      [Reply.ok (repoPage ["omega"] none)] (by decide) (by decide) (by decide)).1.2.1,
    (enumeration_cursor_threading { Region := lit "us-east-1", RepositoryName := lit "svc" }
      [imagePage [image "d1" "1.0.0-a"] (some "t1"), imagePage [image "d2" "2.0.0"] (some "t2"),
       imagePage [image "d3" "1.0.0-c"] none]
      [Reply.ok (imagePage [image "d4" "1.0.0-d"] none)]
      [repoPage ["zeta", "alpha"] (some "r1"), repoPage ["mu"] none]
      [Reply.ok (repoPage ["omega"] none)] (by decide) (by decide) (by decide)).2.2.1⟩

/-! ## Consumer entry point: the Tag step is not gated on the Pull -/

/-- C10 as amended: in the consumer entry point the Tag step is not gated on the Pull.
Whenever `GetEcrLoginPassword` has returned and the call of `PullImage` returns, with an
error or without, `main` discards the result and invokes `RetagAndPushImage` next with
the same credentials and request; when the docker client was created, the first engine
call of that invocation is `ImageTag` from the source reference to the `latest`
reference. -/
theorem consumer_main_retags_whatever_pull_returns (repoName : GoString)
    (tkn : Reply GetAuthorizationTokenOutput) (engine : Engine) (pwd : GoString)
    (err perr : Option Err) (h : GetEcrLoginPassword tkn = .returned (pwd, err))
    (hpull : (callPullImage engine { Username := lit "AWS", Password := pwd }
        (consumerRequest repoName)).2 = .returned perr) :
    ∃ rest : List Event,
      (consumer.main repoName tkn engine).events
        = .PullImage { Username := lit "AWS", Password := pwd } (consumerRequest repoName)
          :: ((callPullImage engine { Username := lit "AWS", Password := pwd }
                (consumerRequest repoName)).1
            ++ .RetagAndPushImage { Username := lit "AWS", Password := pwd }
                (consumerRequest repoName)
              :: rest)
      ∧ (engine.newClientErr = none →
          ∃ more : List Event,
            rest = .ImageTag
                (imageRef (lit "656715373819") (lit "us-east-1") repoName
                  (lit "1.0.0-dev-2693"))
                (imageRef (lit "656715373819") (lit "us-east-1") repoName (lit "latest"))
              :: more) := by
  refine ⟨(callRetagAndPushImage engine { Username := lit "AWS", Password := pwd }
    (consumerRequest repoName)).1, ?_, ?_⟩
  · simp only [consumerRequest] at hpull ⊢
    simp only [consumer.main, h, hpull]
    simp
  · intro hclient
    obtain ⟨more, hmore, _⟩ := RetagAndPushImage_starts_with_tag engine
      { Username := lit "AWS", Password := pwd } (consumerRequest repoName)
    refine ⟨more, ?_⟩
    simp only [callRetagAndPushImage, hclient, hmore]
    rfl

theorem consumer_main_retags_whatever_pull_returns_witness :
    GetEcrLoginPassword (singleToken (lit "QVdTOnNlY3JldDEyMw=="))
      = .returned (lit "secret123", none)
    ∧ (callPullImage (sampleEngine (some (.upstream 7)) none none)
        { Username := lit "AWS", Password := lit "secret123" }
        (consumerRequest (lit "svc"))).2 = .returned (some (.upstream 7))
    ∧ (sampleEngine (some (.upstream 7)) none none).newClientErr = none
    ∧ ∃ rest : List Event,
      (consumer.main (lit "svc") (singleToken (lit "QVdTOnNlY3JldDEyMw=="))
          (sampleEngine (some (.upstream 7)) none none)).events
        = .PullImage { Username := lit "AWS", Password := lit "secret123" }
            (consumerRequest (lit "svc"))
          :: ((callPullImage (sampleEngine (some (.upstream 7)) none none)
                { Username := lit "AWS", Password := lit "secret123" }
                (consumerRequest (lit "svc"))).1
            ++ .RetagAndPushImage { Username := lit "AWS", Password := lit "secret123" }
                (consumerRequest (lit "svc"))
              :: rest)
      ∧ ((sampleEngine (some (.upstream 7)) none none).newClientErr = none →
          ∃ more : List Event,
            rest = .ImageTag
                (imageRef (lit "656715373819") (lit "us-east-1") (lit "svc")
                  (lit "1.0.0-dev-2693"))
                (imageRef (lit "656715373819") (lit "us-east-1") (lit "svc") (lit "latest"))
              :: more) :=
  ⟨by decide, by decide, by decide,
    consumer_main_retags_whatever_pull_returns (lit "svc")
      (singleToken (lit "QVdTOnNlY3JldDEyMw==")) (sampleEngine (some (.upstream 7)) none none)
      (lit "secret123") none (some (.upstream 7)) (by decide) (by decide)⟩

/-! ## A failed repository fetch -/

theorem describeRepositoriesLoop_failed_fetch (e : Err)
    (rest : List (Reply DescribeRepositoriesOutput)) (ps : List DescribeRepositoriesOutput) :
    ∀ (input : DescribeRepositoriesInput) (p : DescribeRepositoriesOutput) (err : Option Err)
      (acc : List ECRRepository),
      p.NextToken.isSome = true →
      ps.all (fun q => q.NextToken.isSome) = true →
      (describeRepositoriesLoop (ps.map Reply.ok ++ { resp := none, err := some e } :: rest)
          input p err acc).outcome = .panicked
      ∧ (describeRepositoriesLoop (ps.map Reply.ok ++ { resp := none, err := some e } :: rest)
          input p err acc).calls.length = ps.length + 1 := by
  induction ps with
  | nil =>
    intro input p err acc hp _
    obtain ⟨tok, htok⟩ := Option.isSome_iff_exists.mp hp
    simp [describeRepositoriesLoop, htok]
  | cons q ps ih =>
    intro input p err acc hp hall
    obtain ⟨tok, htok⟩ := Option.isSome_iff_exists.mp hp
    simp only [List.all_cons, Bool.and_eq_true] at hall
    have := ih { input with NextToken := some tok } q none
      (appendRepositories acc q.Repositories) hall.1 hall.2
    rw [List.map_cons, List.cons_append, describeRepositoriesLoop]
    simp only [htok, Reply.ok, this, List.length_cons]
    exact ⟨trivial, trivial⟩

/-- C8: when a page fetch fails during `GetEcrRepositories` (the pages `ps` fetched so far
each carry a continuation token and the next call of `DescribeRepositories` returns the
SDK's failure, a nil response with an error), the function reaches that call and panics on
`resp.Repositories`: no value, and in particular not the repositories accumulated so far,
is returned to the caller, so the failed enumeration differs from every enumeration that
returns a value. The handler `getRepositories` likewise writes no 200 response. -/
theorem GetEcrRepositories_failed_fetch_returns_nothing (ps : List DescribeRepositoriesOutput)
    (e : Err) (rest : List (Reply DescribeRepositoriesOutput))
    (hps : ps.all (fun q => q.NextToken.isSome) = true) :
    (GetEcrRepositories
        { cfgErr := none,
          pages := ps.map Reply.ok ++ { resp := none, err := some e } :: rest }).outcome
      = .panicked
    ∧ (GetEcrRepositories
        { cfgErr := none,
          pages := ps.map Reply.ok ++ { resp := none, err := some e } :: rest }).calls.length
      = ps.length + 1
    ∧ (∀ repos : ECRResponse,
        (GetEcrRepositories
          { cfgErr := none,
            pages := ps.map Reply.ok ++ { resp := none, err := some e } :: rest }).outcome
        ≠ .returned repos)
    ∧ (getRepositories
        { cfgErr := none,
          pages := ps.map Reply.ok ++ { resp := none, err := some e } :: rest }).outcome
      = .panicked := by
  have hmain : (GetEcrRepositories
        { cfgErr := none,
          pages := ps.map Reply.ok ++ { resp := none, err := some e } :: rest }).outcome
      = .panicked
    ∧ (GetEcrRepositories
        { cfgErr := none,
          pages := ps.map Reply.ok ++ { resp := none, err := some e } :: rest }).calls.length
      = ps.length + 1
    ∧ (getRepositories
        { cfgErr := none,
          pages := ps.map Reply.ok ++ { resp := none, err := some e } :: rest }).outcome
      = .panicked := by
    cases ps with
    | nil => simp [GetEcrRepositories, getRepositories]
    | cons p ps =>
      simp only [List.all_cons, Bool.and_eq_true] at hps
      have := describeRepositoriesLoop_failed_fetch e rest ps
        { MaxResults := 10, NextToken := none } p none
        (appendRepositories [] p.Repositories) hps.1 hps.2
      rw [List.map_cons, List.cons_append, GetEcrRepositories, getRepositories]
      simp only [Reply.ok, this, List.length_cons]
      exact ⟨trivial, trivial, trivial⟩
  refine ⟨hmain.1, hmain.2.1, ?_, hmain.2.2⟩
  intro repos h
  rw [hmain.1] at h
  cases h

theorem GetEcrRepositories_failed_fetch_returns_nothing_witness :
    [repoPage ["zeta", "alpha"] (some "t1")].all (fun q => q.NextToken.isSome) = true
    ∧ (GetEcrRepositories
        { cfgErr := none,
          pages := [repoPage ["zeta", "alpha"] (some "t1"), repoPage ["mu"] none].map
            Reply.ok }).outcome
      = .returned { Repositories := [{ RepositoryName := lit "alpha" },
                                     { RepositoryName := lit "mu" },
                                     { RepositoryName := lit "zeta" }] }
    ∧ (GetEcrRepositories
        { cfgErr := none,
          pages := [repoPage ["zeta", "alpha"] (some "t1")].map Reply.ok
            ++ { resp := none, err := some (.upstream 1) } :: [] }).outcome
      = .panicked
    ∧ (GetEcrRepositories
        { cfgErr := none,
          pages := [repoPage ["zeta", "alpha"] (some "t1")].map Reply.ok
            ++ { resp := none, err := some (.upstream 1) } :: [] }).calls.length
      = [repoPage ["zeta", "alpha"] (some "t1")].length + 1
    ∧ (∀ repos : ECRResponse,
        (GetEcrRepositories
          { cfgErr := none,
            pages := [repoPage ["zeta", "alpha"] (some "t1")].map Reply.ok
              ++ { resp := none, err := some (.upstream 1) } :: [] }).outcome
        ≠ .returned repos)
    ∧ (getRepositories
        { cfgErr := none,
          pages := [repoPage ["zeta", "alpha"] (some "t1")].map Reply.ok
            ++ { resp := none, err := some (.upstream 1) } :: [] }).outcome
      = .panicked :=
  ⟨by decide, by decide,
    GetEcrRepositories_failed_fetch_returns_nothing [repoPage ["zeta", "alpha"] (some "t1")]
      (.upstream 1) [] (by decide)⟩

/-! ## Untagged images -/

/-- C1, counterexample: one page, fetched without error and with a nil `NextToken`, holds
the images `(d1, 1.0.0-a)` and `(d2, no tag)`; `GetEcrContainers` dereferences the nil
`ImageTag` and panics, so it returns neither a nil error nor a list. -/
theorem GetEcrContainers_untagged_image_panics :
    completePages ListImagesOutput.NextToken
        [{ ImageIds := [image "d1" "1.0.0-a",
                        { ImageDigest := some (lit "d2"), ImageTag := none }],
           NextToken := none }] = true
    ∧ (GetEcrContainers { Region := lit "us-east-1", RepositoryName := lit "svc" }
        { cfgErr := none,
          pages := [{ ImageIds := [image "d1" "1.0.0-a",
                                   { ImageDigest := some (lit "d2"), ImageTag := none }],
                      NextToken := none }].map Reply.ok }).outcome
      = .panicked
    ∧ ¬ ∃ images : DockerImagesResponse,
        (GetEcrContainers { Region := lit "us-east-1", RepositoryName := lit "svc" }
          { cfgErr := none,
            pages := [{ ImageIds := [image "d1" "1.0.0-a",
                                     { ImageDigest := some (lit "d2"), ImageTag := none }],
                        NextToken := none }].map Reply.ok }).outcome
        = .returned (images, none) := by
  refine ⟨by decide, by decide, ?_⟩
  rintro ⟨images, h⟩
  have hp : (GetEcrContainers { Region := lit "us-east-1", RepositoryName := lit "svc" }
      { cfgErr := none,
        pages := [{ ImageIds := [image "d1" "1.0.0-a",
                                 { ImageDigest := some (lit "d2"), ImageTag := none }],
                    NextToken := none }].map Reply.ok }).outcome = .panicked := by decide
  rw [hp] at h
  cases h

/-- C13, counterexample: two pages fetched without error, the first with the continuation
token `t1` and an image without a tag, the second with a nil `NextToken`;
`GetEcrContainers` makes the first list call, panics on the nil `ImageTag` of the first
page and never makes the second call: one call for two pages. -/
theorem GetEcrContainers_untagged_image_stops_calls :
    completePages ListImagesOutput.NextToken
        [{ ImageIds := [{ ImageDigest := some (lit "d1"), ImageTag := none }],
           NextToken := some (lit "t1") },
         imagePage [image "d2" "1.0.0-b"] none] = true
    ∧ [({ ImageIds := [{ ImageDigest := some (lit "d1"), ImageTag := none }],
          NextToken := some (lit "t1") } : ListImagesOutput),
       imagePage [image "d2" "1.0.0-b"] none].length = 2
    ∧ (GetEcrContainers { Region := lit "us-east-1", RepositoryName := lit "svc" }
        { cfgErr := none,
          pages := [{ ImageIds := [{ ImageDigest := some (lit "d1"), ImageTag := none }],
                      NextToken := some (lit "t1") },
                    imagePage [image "d2" "1.0.0-b"] none].map Reply.ok }).calls.length = 1
    ∧ (GetEcrContainers { Region := lit "us-east-1", RepositoryName := lit "svc" }
        { cfgErr := none,
          pages := [{ ImageIds := [{ ImageDigest := some (lit "d1"), ImageTag := none }],
                      NextToken := some (lit "t1") },
                    imagePage [image "d2" "1.0.0-b"] none].map Reply.ok }).outcome
      = .panicked := by
  decide

end GoService
